import Mathlib

/-!
Verification of the atomalloc allocator specification against its source.

The development shallowly embeds the repository's Rust sources
(src/block.rs, src/pool.rs, src/cache.rs, src/manager.rs, src/stats.rs,
src/config.rs, src/lib.rs) as pure sequential Lean functions:

* a Block's packed 64-bit atomic state word is a `Nat` manipulated with the
  source's bit masks (bit 63 = in-use, bit 62 = zeroed, low bits = generation);
* the wrapping atomic counters (`fetch_add` / `fetch_sub` on `AtomicUsize` /
  `AtomicU64`) are explicit arithmetic modulo 2^64 (`wadd` / `wsub`);
* lock-free queues (`SegQueue`, FIFO) are lists of block ids with push-back
  and pop-front;
* blocks live in an id-indexed store (`AllocSt.blocks`), so that "the same
  block" is a statement about ids;
* fallible operations return `Except`; paths that panic in the source
  (`SizeClass::return_block` on a size mismatch) return `none`.

The `allocate_with_generation` compare-and-swap on `total_memory` is embedded
with the earlier snapshot load as an explicit argument (`allocWithGenSnap`),
so losing the CAS is representable; the sequential composition
(`allocWithGen`) passes the state's current value, under which the CAS always
succeeds — exactly the sequential executions of the source.
-/

/-- 2^64, the modulus of the machine's `u64` / `usize` arithmetic. -/
def W64 : Nat := 2 ^ 64

/-- Wrapping 64-bit addition: the semantics of `fetch_add` on `AtomicUsize`
and `AtomicU64`. -/
def wadd (a b : Nat) : Nat := (a + b) % W64

/-- Wrapping 64-bit subtraction: the semantics of `fetch_sub`. -/
def wsub (a b : Nat) : Nat := (a + (W64 - b % W64)) % W64

/-- `IN_USE_FLAG: u64 = 1 << 63` from block.rs. -/
def inUseFlag : Nat := 2 ^ 63

/-- `ZEROED_FLAG: u64 = 1 << 62` from block.rs. -/
def zeroedFlag : Nat := 2 ^ 62

/-- `u64::MAX`; used to express the bitwise complement `!mask` as
`u64Max - mask` for single- and double-bit masks. -/
def u64Max : Nat := W64 - 1

/-- Fuel-driven ceiling base-2 logarithm: `clog2f f n` is the least `k` with
`n ≤ 2^k`, provided `f ≥ n`.  (Fuel keeps the definition structural, hence
kernel-reducible.) -/
def clog2f : Nat → Nat → Nat
  | 0, _ => 0
  | f + 1, n => if n ≤ 1 then 0 else clog2f f ((n + 1) / 2) + 1

/-- Ceiling base-2 logarithm. -/
def clog2 (n : Nat) : Nat := clog2f n n

/-- Rust's `usize::next_power_of_two`: the least power of two `≥ n`, with
`0` and `1` mapping to `1`. -/
def nextPow2 (n : Nat) : Nat := 2 ^ clog2 n

/-- Fuel-driven count of trailing zero bits (Rust `trailing_zeros`); in this
code base it is only applied to results of `next_power_of_two`, which are
positive powers of two. -/
def tzf : Nat → Nat → Nat
  | 0, _ => 0
  | f + 1, n => if n % 2 = 0 ∧ n ≠ 0 then tzf f (n / 2) + 1 else 0

/-- Count of trailing zero bits. -/
def tz (n : Nat) : Nat := tzf n n

/-- Errors of error.rs (`BlockError`). -/
inductive BlockErr
  | outOfBounds (offset len size : Nat)
  | notInitialized
  | inUse
  | invalidGeneration (block expected : Nat)
  deriving Repr, DecidableEq

/-- Errors of error.rs (`AtomAllocError`). -/
inductive AErr
  | outOfMemory
  | invalidSize (requested maxAllowed : Nat)
  | invalidAlignment (requested supported : Nat)
  | managerError
  | blockError (e : BlockErr)
  deriving Repr, DecidableEq

/-- A Block (block.rs): the packed atomic `state` word, the `size` atomic,
and the byte array `data`.  In the source `data.len() == size` always holds;
the model keeps both fields like the source does. -/
structure Blk where
  state : Nat
  size : Nat
  data : List Nat
  deriving Repr, DecidableEq

/-- `Block::new(size, generation)`: `state` is initialized to just the
generation value (no flag bits), `data` to `size` zero bytes. -/
def Blk.new (size generation : Nat) : Blk :=
  { state := generation, size := size, data := List.replicate size 0 }

/-- `Block::try_acquire`: `fetch_or(IN_USE_FLAG)` and report whether the
in-use bit was previously clear.  Returns (result, updated block). -/
def Blk.tryAcquire (b : Blk) : Bool × Blk :=
  let current := b.state
  (current &&& inUseFlag == 0, { b with state := current ||| inUseFlag })

/-- `Block::release`: `fetch_and(!IN_USE_FLAG)`. -/
def Blk.release (b : Blk) : Blk :=
  { b with state := b.state &&& (u64Max - inUseFlag) }

/-- `Block::generation`: `state & !(IN_USE_FLAG | ZEROED_FLAG)`. -/
def Blk.generation (b : Blk) : Nat :=
  b.state &&& (u64Max - inUseFlag - zeroedFlag)

/-- `Block::update_generation(new_gen)`: keep the two flag bits, replace the
rest by `new_gen`. -/
def Blk.updateGeneration (b : Blk) (newGen : Nat) : Blk :=
  let flags := b.state &&& (inUseFlag ||| zeroedFlag)
  { b with state := newGen ||| flags }

/-- `Block::clear`: store 0 to each of the `size` bytes, then
`fetch_or(ZEROED_FLAG)`. -/
def Blk.clear (b : Blk) : Blk :=
  { b with data := List.replicate b.size 0, state := b.state ||| zeroedFlag }

/-- Overlay `bs` on `data` starting at `offset` (the loop of
`Block::write`). -/
def listWrite (data : List Nat) (offset : Nat) (bs : List Nat) : List Nat :=
  data.take offset ++ bs ++ data.drop (offset + bs.length)

/-- `Block::write(offset, data)`: bounds check against `size`, then copy the
bytes and `fetch_and(!ZEROED_FLAG)`. -/
def Blk.write (b : Blk) (offset : Nat) (bs : List Nat) : Except BlockErr Blk :=
  if offset + bs.length > b.size then
    .error (.outOfBounds offset bs.length b.size)
  else
    .ok { b with
            data := listWrite b.data offset bs,
            state := b.state &&& (u64Max - zeroedFlag) }

/-- The configuration record of config.rs (`cache_ttl`, a `Duration` unused
by the core, is omitted). -/
structure Config where
  maxMemory : Nat
  maxBlockSize : Nat
  minBlockSize : Nat
  alignment : Nat
  maxCaches : Nat
  initialPoolSize : Nat
  zeroOnDealloc : Bool
  deriving Repr, DecidableEq

/-- Rust `usize::is_power_of_two`. -/
def isPow2 (n : Nat) : Bool := decide (0 < n) && (n &&& (n - 1) == 0)

/-- `AtomAllocConfig::validate` as a boolean. -/
def Config.validateOk (cfg : Config) : Bool :=
  decide (cfg.initialPoolSize ≤ cfg.maxMemory) &&
    isPow2 cfg.minBlockSize &&
    isPow2 cfg.maxBlockSize &&
    decide (cfg.minBlockSize ≤ cfg.maxBlockSize) &&
    isPow2 cfg.alignment &&
    decide (0 < cfg.maxCaches)

/-- `AtomAllocConfig::default`. -/
def defaultConfig : Config :=
  { maxMemory := 1073741824
    maxBlockSize := 65536
    minBlockSize := 64
    alignment := 16
    maxCaches := 1000
    initialPoolSize := 1048576
    zeroOnDealloc := true }

/-- `AtomAllocConfig::get_default_for_tests`. -/
def testsConfig : Config :=
  { maxMemory := 16384
    maxBlockSize := 1024
    minBlockSize := 64
    alignment := 8
    maxCaches := 100
    initialPoolSize := 4096
    zeroOnDealloc := true }

/-- The five counters of stats.rs (`AtomAllocStats`). -/
structure StatsSt where
  totalAllocated : Nat
  totalFreed : Nat
  currentAllocated : Nat
  cacheHits : Nat
  cacheMisses : Nat
  deriving Repr, DecidableEq

/-- `AtomAllocStats::record_allocation`. -/
def recordAllocation (s : StatsSt) (size : Nat) : StatsSt :=
  { s with
      totalAllocated := wadd s.totalAllocated size
      currentAllocated := wadd s.currentAllocated size }

/-- `AtomAllocStats::record_deallocation`. -/
def recordDeallocation (s : StatsSt) (size : Nat) : StatsSt :=
  { s with
      totalFreed := wadd s.totalFreed size
      currentAllocated := wsub s.currentAllocated size }

/-- `AtomAllocStats::record_cache_hit`. -/
def recordCacheHit (s : StatsSt) : StatsSt :=
  { s with cacheHits := wadd s.cacheHits 1 }

/-- `AtomAllocStats::record_cache_miss`. -/
def recordCacheMiss (s : StatsSt) : StatsSt :=
  { s with cacheMisses := wadd s.cacheMisses 1 }

/-- A `SizePool` of pool.rs: the free-list holds block ids. -/
structure SizePoolSt where
  blockSize : Nat
  freeBlocks : List Nat
  allocatedBlocks : Nat
  totalBlocks : Nat
  deriving Repr, DecidableEq

/-- A `SizeClass` of cache.rs. -/
structure SizeClassSt where
  size : Nat
  hotQueue : List Nat
  coldQueue : List Nat
  allocationCount : Nat
  deriving Repr, DecidableEq

/-- The whole allocator's state: the id-indexed block store, the
`MemoryPool` (pools + `total_memory`), the `BlockCache`'s size classes, the
`BlockManager`'s generation counter, and the stats. -/
structure AllocSt where
  blocks : List Blk
  pools : List SizePoolSt
  classes : List SizeClassSt
  totalMemory : Nat
  currentGeneration : Nat
  stats : StatsSt
  deriving Repr, DecidableEq

/-- Placeholder block for unreachable missing-id lookups. -/
def dummyBlk : Blk := { state := 0, size := 0, data := [] }

/-- Look up a block by id. -/
def getBlk (st : AllocSt) (id : Nat) : Blk := (st.blocks[id]?).getD dummyBlk

/-- Replace the block stored at `id`. -/
def setBlk (st : AllocSt) (id : Nat) (b : Blk) : AllocSt :=
  { st with blocks := st.blocks.set id b }

/-- Replace the size pool at index `i`. -/
def AllocSt.setPool (st : AllocSt) (i : Nat) (p : SizePoolSt) : AllocSt :=
  { st with pools := st.pools.set i p }

/-- Replace the size class at index `i`. -/
def AllocSt.setClass (st : AllocSt) (i : Nat) (c : SizeClassSt) : AllocSt :=
  { st with classes := st.classes.set i c }

/-- `pool.allocated_blocks.fetch_add(1)`. -/
def bumpPoolAllocated (st : AllocSt) (pidx : Nat) : AllocSt :=
  match st.pools[pidx]? with
  | none => st
  | some p => st.setPool pidx { p with allocatedBlocks := wadd p.allocatedBlocks 1 }

/-- `pool.allocated_blocks.fetch_sub(1)` (wrapping). -/
def decPoolAllocated (st : AllocSt) (pidx : Nat) : AllocSt :=
  match st.pools[pidx]? with
  | none => st
  | some p => st.setPool pidx { p with allocatedBlocks := wsub p.allocatedBlocks 1 }

/-- `pool.total_blocks.fetch_add(1)`. -/
def bumpPoolTotal (st : AllocSt) (pidx : Nat) : AllocSt :=
  match st.pools[pidx]? with
  | none => st
  | some p => st.setPool pidx { p with totalBlocks := wadd p.totalBlocks 1 }

/-- `pool.push_free_block(block)`. -/
def pushFree (st : AllocSt) (pidx : Nat) (id : Nat) : AllocSt :=
  match st.pools[pidx]? with
  | none => st
  | some p => st.setPool pidx { p with freeBlocks := p.freeBlocks ++ [id] }

/-- The `block_size` of the pool at `pidx`. -/
def poolBlockSize (st : AllocSt) (pidx : Nat) : Nat :=
  ((st.pools[pidx]?).map SizePoolSt.blockSize).getD 0

/-- `MemoryPool::get_size_pool`: round the requested size up to a power of
two, reject sizes under `min_block_size`, and map to the pool index
`log2(rounded) - log2(min_block_size)`; a missing index is `InvalidSize`. -/
def getSizePool (cfg : Config) (pools : List SizePoolSt) (requestedSize : Nat) :
    Except AErr Nat :=
  let size := nextPow2 requestedSize
  if size < cfg.minBlockSize then
    .error (.invalidSize requestedSize cfg.maxBlockSize)
  else
    let minBits := tz cfg.minBlockSize
    let sizeBits := tz size
    let index := sizeBits - minBits
    match pools[index]? with
    | some _ => .ok index
    | none => .error (.invalidSize requestedSize cfg.maxBlockSize)

/-- The free-list branch of `allocate_with_generation`: pop the pool's
free-list once; if a block comes out and its `try_acquire` succeeds, return
it.  A popped block that fails `try_acquire` is dropped (the source lets it
fall out of scope) and the function falls through to the CAS. -/
def freeGrab (st : AllocSt) (pidx : Nat) : Option Nat × AllocSt :=
  match st.pools[pidx]? with
  | none => (none, st)
  | some p =>
    match p.freeBlocks with
    | [] => (none, st)
    | id :: rest =>
      let st1 := st.setPool pidx { p with freeBlocks := rest }
      let b := getBlk st1 id
      let acq := b.tryAcquire
      let st2 := setBlk st1 id acq.2
      if acq.1 then (some id, st2) else (none, st2)

/-- `MemoryPool::allocate_with_generation`, with the earlier
`total_memory.load` snapshot as the explicit argument `snap` (the state may
have been changed by other tasks between the load and the CAS; the CAS
compares the state's current value against `snap`). -/
def allocWithGenSnap (cfg : Config) (st : AllocSt) (size generation snap : Nat) :
    Except AErr Nat × AllocSt :=
  let rounded := nextPow2 size
  if rounded > cfg.maxBlockSize then (.error .outOfMemory, st)
  else
    match getSizePool cfg st.pools size with
    | .error e => (.error e, st)
    | .ok pidx =>
      let actualSize := poolBlockSize st pidx
      let effectiveMax := cfg.maxMemory * 3 / 4
      if snap + actualSize > effectiveMax then (.error .outOfMemory, st)
      else
        match freeGrab st pidx with
        | (some id, st1) => (.ok id, bumpPoolAllocated st1 pidx)
        | (none, st1) =>
          if st1.totalMemory = snap then
            let st2 := { st1 with totalMemory := snap + actualSize }
            let blockId := st2.blocks.length
            let st3 := { st2 with blocks := st2.blocks ++ [Blk.new actualSize generation] }
            let st4 := { st3 with stats := recordAllocation st3.stats actualSize }
            (.ok blockId, bumpPoolAllocated (bumpPoolTotal st4 pidx) pidx)
          else (.error .outOfMemory, st1)

/-- `allocate_with_generation` in a sequential execution: the snapshot is the
state's current `total_memory`, so the one-shot CAS cannot lose. -/
def allocWithGen (cfg : Config) (st : AllocSt) (size generation : Nat) :
    Except AErr Nat × AllocSt :=
  allocWithGenSnap cfg st size generation st.totalMemory

/-- `MemoryPool::deallocate`: look up the pool for `block.size()`; if it
exists, `fetch_sub` the size from `total_memory`, release the block, push it
on the free-list, record the deallocation, and decrement
`allocated_blocks`.  A missing pool makes the whole call a no-op
(`if let Ok`). -/
def poolDeallocate (cfg : Config) (st : AllocSt) (id : Nat) : Option AllocSt :=
  match st.blocks[id]? with
  | none => none
  | some b =>
    let size := b.size
    match getSizePool cfg st.pools size with
    | .error _ => some st
    | .ok pidx =>
      let st1 := { st with totalMemory := wsub st.totalMemory size }
      let st2 := setBlk st1 id (getBlk st1 id).release
      let st3 := pushFree st2 pidx id
      let st4 := { st3 with stats := recordDeallocation st3.stats size }
      some (decPoolAllocated st4 pidx)

/-- `BlockManager::new_generation`: `fetch_add(1)`, returning the
pre-increment value. -/
def newGeneration (st : AllocSt) : Nat × AllocSt :=
  (st.currentGeneration, { st with currentGeneration := wadd st.currentGeneration 1 })

/-- `BlockManager::verify_generation`. -/
def verifyGeneration (cfg : Config) (st : AllocSt) (b : Blk) : Except AErr Unit :=
  if cfg.zeroOnDealloc = false then .ok ()
  else
    let blockGen := b.generation
    let currentGen := st.currentGeneration
    if blockGen > currentGen then
      .error (.blockError (.invalidGeneration blockGen currentGen))
    else .ok ()

/-- `BlockManager::zero_block`: `clear` iff `zero_on_dealloc`. -/
def zeroBlockOp (cfg : Config) (b : Blk) : Blk :=
  if cfg.zeroOnDealloc then b.clear else b

/-- `BlockCache::SIZE_CLASSES`. -/
def sizeClasses : List Nat := [32, 64, 128, 256, 512, 1024, 2048, 4096, 8192]

/-- `BlockCache::get_size_class_index`. -/
def getSizeClassIndex (size : Nat) : Option Nat :=
  if size ≤ 32 then some 0
  else
    let sizeLog2 := tz (nextPow2 (size - 1))
    let index := sizeLog2 - 5
    if index < sizeClasses.length then some index else none

/-- `class.allocation_count.fetch_add(1)`. -/
def bumpClassCount (st : AllocSt) (cidx : Nat) : AllocSt :=
  match st.classes[cidx]? with
  | none => st
  | some c => st.setClass cidx { c with allocationCount := wadd c.allocationCount 1 }

/-- One loop iteration of `SizeClass::get_block`: pop the hot (or cold)
queue once; a popped block is returned iff its size matches the class and
`try_acquire` succeeds, otherwise it is dropped on the floor. -/
def classAttempt (st : AllocSt) (cidx : Nat) (hot : Bool) : Option Nat × AllocSt :=
  match st.classes[cidx]? with
  | none => (none, st)
  | some c =>
    match (if hot then c.hotQueue else c.coldQueue) with
    | [] => (none, st)
    | id :: rest =>
      let c1 := if hot then { c with hotQueue := rest } else { c with coldQueue := rest }
      let st1 := st.setClass cidx c1
      let b := getBlk st1 id
      if b.size = c.size then
        let acq := b.tryAcquire
        let st2 := setBlk st1 id acq.2
        if acq.1 then (some id, bumpClassCount st2 cidx) else (none, st2)
      else (none, st1)

/-- `SizeClass::get_block`: two attempts on the hot queue, then one on the
cold queue. -/
def classGetBlock (st : AllocSt) (cidx : Nat) : Option Nat × AllocSt :=
  match classAttempt st cidx true with
  | (some id, st1) => (some id, st1)
  | (none, st1) =>
    match classAttempt st1 cidx true with
    | (some id, st2) => (some id, st2)
    | (none, st2) => classAttempt st2 cidx false

/-- `SizeClass::return_block`: panic (`none`) when the block's size does not
match the class; otherwise push to the hot queue iff
`allocation_count & 7 == 0`, else to the cold queue. -/
def classReturnBlock (st : AllocSt) (cidx : Nat) (id : Nat) : Option AllocSt :=
  match st.classes[cidx]? with
  | none => none
  | some c =>
    let allocCount := c.allocationCount
    let b := getBlk st id
    if b.size ≠ c.size then none
    else if allocCount &&& 7 = 0 then
      some (st.setClass cidx { c with hotQueue := c.hotQueue ++ [id] })
    else
      some (st.setClass cidx { c with coldQueue := c.coldQueue ++ [id] })

/-- The miss path shared by both arms of `BlockCache::allocate`: record a
cache miss, draw a fresh generation, delegate to the pool. -/
def cacheMissPath (cfg : Config) (st : AllocSt) (size : Nat) :
    Except AErr Nat × AllocSt :=
  let st1 := { st with stats := recordCacheMiss st.stats }
  let gp := newGeneration st1
  allocWithGen cfg gp.2 size gp.1

/-- `BlockCache::allocate`. -/
def cacheAllocate (cfg : Config) (st : AllocSt) (size : Nat) :
    Except AErr Nat × AllocSt :=
  match getSizeClassIndex size with
  | some cidx =>
    match classGetBlock st cidx with
    | (some id, st1) =>
      let st2 := { st1 with stats := recordAllocation st1.stats (getBlk st1 id).size }
      let st3 := { st2 with stats := recordCacheHit st2.stats }
      (.ok id, st3)
    | (none, st1) => cacheMissPath cfg st1 size
  | none => cacheMissPath cfg st size

/-- `BlockCache::deallocate`: release, `zero_block`, then either return the
block to its size class (recording the deallocation) or forward to
`MemoryPool::deallocate`. -/
def cacheDeallocate (cfg : Config) (st : AllocSt) (id : Nat) : Option AllocSt :=
  match st.blocks[id]? with
  | none => none
  | some b =>
    let size := b.size
    let st1 := setBlk st id b.release
    let st2 := setBlk st1 id (zeroBlockOp cfg (getBlk st1 id))
    match getSizeClassIndex size with
    | some cidx =>
      match classReturnBlock st2 cidx id with
      | none => none
      | some st3 => some { st3 with stats := recordDeallocation st3.stats size }
    | none => poolDeallocate cfg st2 id

/-- `AtomAlloc::allocate` (lib.rs): try the cache; on success verify the
generation and record a cache hit; on any cache error record a cache miss
and retry directly against the pool with a fresh generation. -/
def topAllocate (cfg : Config) (st : AllocSt) (size : Nat) :
    Except AErr Nat × AllocSt :=
  match cacheAllocate cfg st size with
  | (.ok id, st1) =>
    match verifyGeneration cfg st1 (getBlk st1 id) with
    | .error e => (.error e, st1)
    | .ok _ => (.ok id, { st1 with stats := recordCacheHit st1.stats })
  | (.error _, st1) =>
    let st2 := { st1 with stats := recordCacheMiss st1.stats }
    let gp := newGeneration st2
    allocWithGen cfg gp.2 size gp.1

/-- The loop of `MemoryPool::create_size_pools`: sizes `min, 2*min, ...`
while `≤ max` (fuel-driven; `max + 1` units of fuel suffice). -/
def createPoolSizes : Nat → Nat → Nat → List Nat
  | 0, _, _ => []
  | fuel + 1, size, maxB =>
    if size ≤ maxB then size :: createPoolSizes fuel (size * 2) maxB else []

/-- `MemoryPool::create_size_pools`. -/
def createPools (cfg : Config) : List SizePoolSt :=
  (createPoolSizes (cfg.maxBlockSize + 1) cfg.minBlockSize cfg.maxBlockSize).map
    fun s => { blockSize := s, freeBlocks := [], allocatedBlocks := 0, totalBlocks := 0 }

/-- The state of a freshly constructed allocator (`AtomAlloc::with_config`). -/
def initState (cfg : Config) : AllocSt :=
  { blocks := []
    pools := createPools cfg
    classes := sizeClasses.map
      fun s => { size := s, hotQueue := [], coldQueue := [], allocationCount := 0 }
    totalMemory := 0
    currentGeneration := 0
    stats := { totalAllocated := 0, totalFreed := 0, currentAllocated := 0,
               cacheHits := 0, cacheMisses := 0 } }

/-- The operations a client can perform between observation points:
`AtomAlloc::allocate`, `AtomAlloc::deallocate`, and `Block::write` on a held
block. -/
inductive AOp
  | alloc (size : Nat)
  | dealloc (id : Nat)
  | blockWrite (id offset : Nat) (bs : List Nat)
  deriving Repr, DecidableEq

/-- A client `Block::write` on the block with the given id (out-of-bounds
writes fail and change nothing). -/
def stepWrite (st : AllocSt) (id offset : Nat) (bs : List Nat) : Option AllocSt :=
  match st.blocks[id]? with
  | none => none
  | some b =>
    match b.write offset bs with
    | .error _ => some st
    | .ok b' => some (setBlk st id b')

/-- One completed operation.  `none` models a panic or an ill-formed trace
(deallocating / writing a nonexistent id). -/
def step (cfg : Config) (st : AllocSt) : AOp → Option AllocSt
  | .alloc size => some (topAllocate cfg st size).2
  | .dealloc id => cacheDeallocate cfg st id
  | .blockWrite id offset bs => stepWrite st id offset bs

/-- Run a sequence of operations. -/
def runOps (cfg : Config) : AllocSt → List AOp → Option AllocSt
  | st, [] => some st
  | st, op :: ops =>
    match step cfg st op with
    | none => none
    | some st' => runOps cfg st' ops

/-- The operations offered by a single `Block` (for the per-block ownership
claims). -/
inductive BlockOp
  | tryAcq
  | rel
  | clearOp
  | updateGen (g : Nat)
  | writeOp (offset : Nat) (bs : List Nat)
  | readOp (offset len : Nat)
  deriving Repr, DecidableEq

/-- Apply one block operation (the boolean result of `try_acquire` and the
errors of `write` are discarded here; `read` does not change the block). -/
def Blk.applyOp (b : Blk) : BlockOp → Blk
  | .tryAcq => (b.tryAcquire).2
  | .rel => b.release
  | .clearOp => b.clear
  | .updateGen g => b.updateGeneration g
  | .writeOp offset bs =>
    match b.write offset bs with
    | .ok b' => b'
    | .error _ => b
  | .readOp _ _ => b

/-- Apply a sequence of block operations. -/
def Blk.applyOps (b : Blk) (ops : List BlockOp) : Blk := ops.foldl Blk.applyOp b

/-- Every byte of the block stored at `id` is zero (vacuously true when no
block has that id). -/
def stAllZero (st : AllocSt) (id : Nat) : Prop :=
  ∀ b, st.blocks[id]? = some b → ∀ x ∈ b.data, x = 0

/-- Configuration exhibiting the `total_memory` / `current_bytes` wrap: one
size pool of 16384-byte blocks (a size no cache class covers), with
zero-on-dealloc off. -/
def wrapConfig : Config :=
  { maxMemory := 32768, maxBlockSize := 16384, minBlockSize := 16384,
    alignment := 8, maxCaches := 1, initialPoolSize := 0, zeroOnDealloc := false }

/-- A tiny released block for the C8 witness. -/
def tinyBlk : Blk := { state := 0, size := 4, data := [0, 0, 0, 0] }

/-- One-pool configuration for the C8 witness. -/
def tinyConfig : Config :=
  { maxMemory := 32, maxBlockSize := 4, minBlockSize := 4, alignment := 8,
    maxCaches := 1, initialPoolSize := 0, zeroOnDealloc := false }

/-- A size pool whose free-list holds block 0. -/
def tinyPool : SizePoolSt :=
  { blockSize := 4, freeBlocks := [0], allocatedBlocks := 0, totalBlocks := 1 }

/-- Allocator state with block 0 sitting in the free-list and 4 bytes
accounted in `total_memory`. -/
def tinyState : AllocSt :=
  { blocks := [tinyBlk], pools := [tinyPool], classes := [], totalMemory := 4,
    currentGeneration := 1,
    stats := { totalAllocated := 4, totalFreed := 0, currentAllocated := 4,
               cacheHits := 0, cacheMisses := 1 } }

/-- The state after reusing block 0 from the free-list and deallocating it
again through the pool. -/
def tinyAfter : AllocSt :=
  (poolDeallocate tinyConfig (allocWithGen tinyConfig tinyState 4 1).2 0).getD tinyState

/-- The default allocator after one allocate(64). -/
def allocOnceState : AllocSt := (topAllocate defaultConfig (initState defaultConfig) 64).2

/-- The default allocator after allocate(64) then deallocate of block 0. -/
def deallocOnceState : AllocSt :=
  (cacheDeallocate defaultConfig allocOnceState 0).getD allocOnceState
theorem testBit_c1_mask : (2 ^ 62 - 1 : Nat) = u64Max - inUseFlag - zeroedFlag := by decide

theorem tryAcquire_fst (b : Blk) : (b.tryAcquire).1 = !b.state.testBit 63 := by
  show (b.state &&& inUseFlag == 0) = !b.state.testBit 63
  have : inUseFlag = 2 ^ 63 := rfl
  rw [this, Nat.and_two_pow]
  cases h : b.state.testBit 63 <;> simp

theorem tryAcquire_snd_state (b : Blk) : (b.tryAcquire).2.state = b.state ||| 2 ^ 63 := rfl

theorem tryAcquire_snd_testBit (b : Blk) : (b.tryAcquire).2.state.testBit 63 = true := by
  rw [tryAcquire_snd_state, Nat.testBit_lor, Nat.testBit_two_pow_self, Bool.or_true]

theorem applyOp_preserves_inUse (b : Blk) (op : BlockOp) (hop : op ≠ .rel)
    (h : b.state.testBit 63 = true) : (b.applyOp op).state.testBit 63 = true := by
  cases op with
  | tryAcq => exact tryAcquire_snd_testBit b
  | rel => exact absurd rfl hop
  | clearOp =>
    show (b.state ||| zeroedFlag).testBit 63 = true
    have hz : zeroedFlag = 2 ^ 62 := rfl
    rw [hz, Nat.testBit_lor, h, Bool.true_or]
  | updateGen g =>
    show (g ||| (b.state &&& (inUseFlag ||| zeroedFlag))).testBit 63 = true
    have hm : (inUseFlag ||| zeroedFlag : Nat).testBit 63 = true := by decide
    rw [Nat.testBit_lor, Nat.testBit_land, h, hm]
    simp
  | writeOp offset bs =>
    by_cases hc : offset + bs.length > b.size
    · simp only [Blk.applyOp, Blk.write, if_pos hc]
      exact h
    · simp only [Blk.applyOp, Blk.write, if_neg hc]
      have hm : (u64Max - zeroedFlag : Nat).testBit 63 = true := by decide
      show (b.state &&& (u64Max - zeroedFlag)).testBit 63 = true
      rw [Nat.testBit_land, h, hm]
      rfl
  | readOp offset len => exact h

theorem applyOps_preserves_inUse (ops : List BlockOp) (b : Blk) (hops : BlockOp.rel ∉ ops)
    (h : b.state.testBit 63 = true) : (b.applyOps ops).state.testBit 63 = true := by
  induction ops generalizing b with
  | nil => exact h
  | cons op rest ih =>
    have h1 : op ≠ .rel := fun he => hops (he ▸ List.mem_cons_self op rest)
    have h2 : BlockOp.rel ∉ rest := fun he => hops (List.mem_cons_of_mem op he)
    exact ih (b.applyOp op) h2 (applyOp_preserves_inUse b op h1 h)

/-- C1: `Block::try_acquire` sets the in-use bit and returns true iff the bit
was previously clear; after an acquisition, any sequence of block operations
not containing `release` leaves the bit set, so every further `try_acquire`
returns false — two callers can never both obtain `true` without an
intervening `release`. -/
theorem c1_try_acquire_exclusive (b : Blk) (ops : List BlockOp)
    (hops : BlockOp.rel ∉ ops) :
    ((b.tryAcquire).1 = true ↔ b.state.testBit 63 = false) ∧
    (b.tryAcquire).2.state.testBit 63 = true ∧
    ((Blk.applyOps (b.tryAcquire).2 ops).tryAcquire).1 = false := by
  refine ⟨?_, tryAcquire_snd_testBit b, ?_⟩
  · rw [tryAcquire_fst]
    cases h : b.state.testBit 63 <;> simp
  · rw [tryAcquire_fst]
    rw [applyOps_preserves_inUse ops _ hops (tryAcquire_snd_testBit b)]
    rfl

/-- Witness for C1 at a concrete block and operation sequence. -/
theorem c1_witness :
    (BlockOp.rel ∉ ([.clearOp, .tryAcq, .writeOp 0 [7], .updateGen 3] : List BlockOp)) ∧
    ((((Blk.mk 0 4 [0, 0, 0, 0]).tryAcquire).1 = true ↔
        (Blk.mk 0 4 [0, 0, 0, 0]).state.testBit 63 = false) ∧
      ((Blk.mk 0 4 [0, 0, 0, 0]).tryAcquire).2.state.testBit 63 = true ∧
      ((Blk.applyOps ((Blk.mk 0 4 [0, 0, 0, 0]).tryAcquire).2
          [.clearOp, .tryAcq, .writeOp 0 [7], .updateGen 3]).tryAcquire).1 = false) :=
  ⟨by decide, c1_try_acquire_exclusive (Blk.mk 0 4 [0, 0, 0, 0])
      [.clearOp, .tryAcq, .writeOp 0 [7], .updateGen 3] (by decide)⟩

/-- C5 counterexample: `Block::new` initializes the state word to just the
generation value, so the zeroed bit is NOT set on a fresh block (the claim
says it is). -/
theorem c5_counterexample : (Blk.new 4 0).state.testBit 62 = false := by decide

theorem and_two_pow_sub_one (n i : Nat) : n &&& (2 ^ i - 1) = n % 2 ^ i := by
  apply Nat.eq_of_testBit_eq
  intro j
  rw [Nat.testBit_land, Nat.testBit_mod_two_pow, Nat.testBit_two_pow_sub_one]
  cases h : n.testBit j <;> simp [Bool.and_comm]

/-- C5 amended: `Block::new(size, generation)` yields a block with the given
size, all bytes zero, the in-use bit clear, generation() = generation (for
generations below 2^62), and the zeroed bit CLEAR (not set, as claimed). -/
theorem c5_block_new (size generation : Nat) (hg : generation < 2 ^ 62) :
    (Blk.new size generation).size = size ∧
    (∀ x ∈ (Blk.new size generation).data, x = 0) ∧
    (Blk.new size generation).state.testBit 63 = false ∧
    (Blk.new size generation).state.testBit 62 = false ∧
    (Blk.new size generation).generation = generation := by
  refine ⟨rfl, ?_, ?_, ?_, ?_⟩
  · intro x hx
    exact (List.mem_replicate.mp hx).2
  · exact Nat.testBit_lt_two_pow (lt_trans hg (by norm_num))
  · exact Nat.testBit_lt_two_pow hg
  · show generation &&& (u64Max - inUseFlag - zeroedFlag) = generation
    rw [← testBit_c1_mask, and_two_pow_sub_one]
    exact Nat.mod_eq_of_lt hg

/-- Witness for C5 at size 4, generation 5. -/
theorem c5_witness :
    (5 : Nat) < 2 ^ 62 ∧
    ((Blk.new 4 5).size = 4 ∧
      (∀ x ∈ (Blk.new 4 5).data, x = 0) ∧
      (Blk.new 4 5).state.testBit 63 = false ∧
      (Blk.new 4 5).state.testBit 62 = false ∧
      (Blk.new 4 5).generation = 5) :=
  ⟨by decide, c5_block_new 4 5 (by decide)⟩

theorem tzf_two_pow (k : Nat) : ∀ f, k ≤ f → tzf f (2 ^ k) = k := by
  induction k with
  | zero =>
    intro f _
    cases f with
    | zero => rfl
    | succ f' => simp [tzf]
  | succ k ih =>
    intro f hf
    cases f with
    | zero => omega
    | succ f' =>
      have h2 : (2 : Nat) ^ (k + 1) % 2 = 0 ∧ (2 : Nat) ^ (k + 1) ≠ 0 := by
        constructor
        · rw [pow_succ]
          omega
        · positivity
      have hdiv : (2 : Nat) ^ (k + 1) / 2 = 2 ^ k := by
        rw [pow_succ]
        omega
      rw [tzf, if_pos h2, hdiv, ih f' (by omega)]

theorem tz_two_pow (k : Nat) : tz (2 ^ k) = k :=
  tzf_two_pow k (2 ^ k) (Nat.le_of_lt (Nat.lt_two_pow k))

theorem clog2f_two_pow (k : Nat) : ∀ f, k ≤ f → clog2f f (2 ^ k) = k := by
  induction k with
  | zero =>
    intro f _
    cases f with
    | zero => rfl
    | succ f' => simp [clog2f]
  | succ k ih =>
    intro f hf
    cases f with
    | zero => omega
    | succ f' =>
      have h1 : ¬ (2 : Nat) ^ (k + 1) ≤ 1 := by
        have : (2 : Nat) ^ 1 ≤ 2 ^ (k + 1) := Nat.pow_le_pow_right (by norm_num) (by omega)
        omega
      have hdiv : ((2 : Nat) ^ (k + 1) + 1) / 2 = 2 ^ k := by
        rw [pow_succ]
        omega
      rw [clog2f, if_neg h1, hdiv, ih f' (by omega)]

theorem clog2_two_pow (k : Nat) : clog2 (2 ^ k) = k :=
  clog2f_two_pow k (2 ^ k) (Nat.le_of_lt (Nat.lt_two_pow k))

theorem nextPow2_two_pow (k : Nat) : nextPow2 (2 ^ k) = 2 ^ k := by
  rw [nextPow2, clog2_two_pow]

theorem createPoolSizes_getElem? (fuel : Nat) :
    ∀ size maxB j x, (createPoolSizes fuel size maxB)[j]? = some x → x = size * 2 ^ j := by
  induction fuel with
  | zero => intro size maxB j x h; simp [createPoolSizes] at h
  | succ f ih =>
    intro size maxB j x h
    rw [createPoolSizes] at h
    by_cases hle : size ≤ maxB
    · rw [if_pos hle] at h
      cases j with
      | zero =>
        simp at h
        omega
      | succ j' =>
        have := ih (size * 2) maxB j' x (by simpa using h)
        rw [this, pow_succ]
        ring
    · rw [if_neg hle] at h
      simp at h

theorem createPools_blockSize (cfg : Config) (j : Nat) (p : SizePoolSt)
    (h : (createPools cfg)[j]? = some p) : p.blockSize = cfg.minBlockSize * 2 ^ j := by
  rw [createPools, List.getElem?_map] at h
  cases hx : (createPoolSizes (cfg.maxBlockSize + 1) cfg.minBlockSize cfg.maxBlockSize)[j]? with
  | none => rw [hx] at h; simp at h
  | some x =>
    rw [hx] at h
    simp at h
    rw [← h]
    exact createPoolSizes_getElem? _ _ _ _ _ hx

theorem getSizePool_ok (cfg : Config) (pools : List SizePoolSt) (size pidx : Nat)
    (h : getSizePool cfg pools size = .ok pidx) :
    ¬ nextPow2 size < cfg.minBlockSize ∧
    pidx = tz (nextPow2 size) - tz cfg.minBlockSize ∧
    ∃ p, pools[pidx]? = some p := by
  by_cases h1 : nextPow2 size < cfg.minBlockSize
  · simp [getSizePool, h1] at h
  · cases hp : pools[tz (nextPow2 size) - tz cfg.minBlockSize]? with
    | none => simp [getSizePool, h1, hp] at h
    | some p =>
      simp only [getSizePool, if_neg h1, hp, Except.ok.injEq] at h
      exact ⟨h1, h.symm, p, h ▸ hp⟩

theorem getSizePool_error_shape (cfg : Config) (pools : List SizePoolSt) (size : Nat) (e : AErr)
    (h : getSizePool cfg pools size = .error e) : e = .invalidSize size cfg.maxBlockSize := by
  by_cases h1 : nextPow2 size < cfg.minBlockSize
  · simp only [getSizePool, if_pos h1, Except.error.injEq] at h
    exact h.symm
  · cases hp : pools[tz (nextPow2 size) - tz cfg.minBlockSize]? with
    | none =>
      simp only [getSizePool, if_neg h1, hp, Except.error.injEq] at h
      exact h.symm
    | some p => simp [getSizePool, h1, hp] at h

theorem actualSize_eq_rounded (cfg : Config) (st : AllocSt) (size pidx a : Nat)
    (hmin : cfg.minBlockSize = 2 ^ a) (hpools : st.pools = createPools cfg)
    (h : getSizePool cfg st.pools size = .ok pidx) :
    poolBlockSize st pidx = nextPow2 size := by
  obtain ⟨h1, h2, p, hp⟩ := getSizePool_ok cfg st.pools size pidx h
  have hbs : p.blockSize = cfg.minBlockSize * 2 ^ pidx :=
    createPools_blockSize cfg pidx p (hpools ▸ hp)
  have ha : a ≤ clog2 size := by
    by_contra hlt
    apply h1
    rw [hmin, nextPow2]
    exact Nat.pow_lt_pow_right (by norm_num) (by omega)
  have hc : tz (nextPow2 size) = clog2 size := by
    rw [nextPow2, tz_two_pow]
  have hmt : tz cfg.minBlockSize = a := by
    rw [hmin, tz_two_pow]
  rw [poolBlockSize, hp]
  show p.blockSize = nextPow2 size
  rw [hbs, hmin, h2, hc, hmt, ← pow_add]
  congr 1
  omega

theorem lor_two_pow_of_testBit (n i : Nat) (h : n.testBit i = true) : n ||| 2 ^ i = n := by
  apply Nat.eq_of_testBit_eq
  intro j
  rw [Nat.testBit_lor]
  by_cases hj : i = j
  · subst hj
    simp [h]
  · rw [Nat.testBit_two_pow_of_ne hj, Bool.or_false]

theorem list_set_same (l : List Blk) (i : Nat) :
    l.set i ((l[i]?).getD dummyBlk) = l := by
  by_cases hlen : i < l.length
  · apply List.ext_getElem?
    intro j
    rw [List.getElem?_set]
    split
    · next hij =>
      subst hij
      rw [List.getElem?_eq_getElem hlen]
      simp [hlen]
    · rfl
  · rw [List.set_eq_of_length_le (Nat.le_of_not_lt hlen)]

theorem tryAcquire_fail_snd (b : Blk) (h : (b.tryAcquire).1 = false) :
    (b.tryAcquire).2 = b := by
  have hbit : b.state.testBit 63 = true := by
    rw [tryAcquire_fst] at h
    simpa using h
  show ({ b with state := b.state ||| inUseFlag } : Blk) = b
  rw [show (inUseFlag : Nat) = 2 ^ 63 from rfl, lor_two_pow_of_testBit _ _ hbit]

theorem freeGrab_totalMemory (st : AllocSt) (pidx : Nat) :
    (freeGrab st pidx).2.totalMemory = st.totalMemory := by
  cases hp : st.pools[pidx]? with
  | none => simp [freeGrab, hp]
  | some p =>
    cases hf : p.freeBlocks with
    | nil => simp [freeGrab, hp, hf]
    | cons id rest =>
      simp only [freeGrab, hp, hf]
      split <;> rfl

theorem freeGrab_stats (st : AllocSt) (pidx : Nat) :
    (freeGrab st pidx).2.stats = st.stats := by
  cases hp : st.pools[pidx]? with
  | none => simp [freeGrab, hp]
  | some p =>
    cases hf : p.freeBlocks with
    | nil => simp [freeGrab, hp, hf]
    | cons id rest =>
      simp only [freeGrab, hp, hf]
      split <;> rfl

theorem freeGrab_none_blocks (st : AllocSt) (pidx : Nat)
    (h : (freeGrab st pidx).1 = none) :
    (freeGrab st pidx).2.blocks = st.blocks := by
  cases hp : st.pools[pidx]? with
  | none => simp [freeGrab, hp]
  | some p =>
    cases hf : p.freeBlocks with
    | nil => simp [freeGrab, hp, hf]
    | cons id rest =>
      simp only [freeGrab, hp, hf] at h ⊢
      by_cases hacq :
          ((getBlk (st.setPool pidx { p with freeBlocks := rest }) id).tryAcquire).1 = true
      · rw [if_pos hacq] at h
        simp at h
      · rw [if_neg hacq]
        have hfail :
            ((getBlk (st.setPool pidx { p with freeBlocks := rest }) id).tryAcquire).1 = false :=
          Bool.not_eq_true _ ▸ hacq
        show (setBlk (st.setPool pidx { p with freeBlocks := rest }) id
            ((getBlk (st.setPool pidx { p with freeBlocks := rest }) id).tryAcquire).2).blocks =
          st.blocks
        rw [tryAcquire_fail_snd _ hfail]
        show (st.setPool pidx { p with freeBlocks := rest }).blocks.set id
            (((st.setPool pidx { p with freeBlocks := rest }).blocks[id]?).getD dummyBlk) =
          st.blocks
        rw [list_set_same]
        rfl

/-- C6: `allocate_with_generation` returns OutOfMemory exactly when the
rounded size exceeds `max_block_size`, or the snapshot plus the rounded size
exceeds `(max_memory * 3) / 4`, or (the free-list yields no acquirable
block and) the one-shot CAS on `total_memory` observes a value different
from the snapshot; and on every error path no block is constructed,
`total_memory` keeps its value, and no allocation statistics are
recorded. -/
theorem c6_oom_exactly (cfg : Config) (st : AllocSt) (size generation snap a : Nat)
    (hmin : cfg.minBlockSize = 2 ^ a) (hpools : st.pools = createPools cfg) :
    ((allocWithGenSnap cfg st size generation snap).1 = .error .outOfMemory ↔
      (nextPow2 size > cfg.maxBlockSize ∨
        (∃ pidx, getSizePool cfg st.pools size = .ok pidx ∧
          ¬ nextPow2 size > cfg.maxBlockSize ∧
          snap + nextPow2 size > cfg.maxMemory * 3 / 4) ∨
        (∃ pidx, getSizePool cfg st.pools size = .ok pidx ∧
          ¬ nextPow2 size > cfg.maxBlockSize ∧
          ¬ snap + nextPow2 size > cfg.maxMemory * 3 / 4 ∧
          (freeGrab st pidx).1 = none ∧
          (freeGrab st pidx).2.totalMemory ≠ snap))) ∧
    (∀ e, (allocWithGenSnap cfg st size generation snap).1 = .error e →
      (allocWithGenSnap cfg st size generation snap).2.blocks = st.blocks ∧
      (allocWithGenSnap cfg st size generation snap).2.totalMemory = st.totalMemory ∧
      (allocWithGenSnap cfg st size generation snap).2.stats = st.stats) := by
  by_cases h1 : nextPow2 size > cfg.maxBlockSize
  · have hres : allocWithGenSnap cfg st size generation snap = (.error .outOfMemory, st) := by
      simp only [allocWithGenSnap, if_pos h1]
    rw [hres]
    exact ⟨⟨fun _ => Or.inl h1, fun _ => rfl⟩, fun e _ => ⟨rfl, rfl, rfl⟩⟩
  · cases hgp : getSizePool cfg st.pools size with
    | error e0 =>
      have hshape := getSizePool_error_shape cfg st.pools size e0 hgp
      have hres : allocWithGenSnap cfg st size generation snap = (.error e0, st) := by
        simp only [allocWithGenSnap, if_neg h1, hgp]
      rw [hres]
      constructor
      · constructor
        · intro h
          simp only [Except.error.injEq] at h
          rw [hshape] at h
          exact absurd h.symm (by simp)
        · rintro (h | ⟨pidx, hok, _⟩ | ⟨pidx, hok, _⟩)
          · exact absurd h h1
          · exact absurd hok (by simp)
          · exact absurd hok (by simp)
      · intro e _
        exact ⟨rfl, rfl, rfl⟩
    | ok pidx =>
      have hact : poolBlockSize st pidx = nextPow2 size :=
        actualSize_eq_rounded cfg st size pidx a hmin hpools hgp
      by_cases h2 : snap + nextPow2 size > cfg.maxMemory * 3 / 4
      · have h2' : snap + poolBlockSize st pidx > cfg.maxMemory * 3 / 4 := by
          rw [hact]
          exact h2
        have hres : allocWithGenSnap cfg st size generation snap = (.error .outOfMemory, st) := by
          simp only [allocWithGenSnap, if_neg h1, hgp, if_pos h2']
        rw [hres]
        exact ⟨⟨fun _ => Or.inr (Or.inl ⟨pidx, rfl, h1, h2⟩), fun _ => rfl⟩,
          fun e _ => ⟨rfl, rfl, rfl⟩⟩
      · have h2' : ¬ snap + poolBlockSize st pidx > cfg.maxMemory * 3 / 4 := by
          rw [hact]
          exact h2
        cases hfg : freeGrab st pidx with
        | mk o st1 =>
          cases o with
          | some id =>
            have hres : allocWithGenSnap cfg st size generation snap =
                (.ok id, bumpPoolAllocated st1 pidx) := by
              simp only [allocWithGenSnap, if_neg h1, hgp, if_neg h2', hfg]
            rw [hres]
            constructor
            · constructor
              · intro h
                exact absurd h (by simp)
              · rintro (h | ⟨pidx', hok, _, hb⟩ | ⟨pidx', hok, _, _, hnone, _⟩)
                · exact absurd h h1
                · simp only [Except.ok.injEq] at hok
                  subst hok
                  exact absurd hb h2
                · simp only [Except.ok.injEq] at hok
                  subst hok
                  rw [hfg] at hnone
                  exact absurd hnone (by simp)
            · intro e he
              exact absurd he (by simp)
          | none =>
            by_cases h3 : st1.totalMemory = snap
            · have hres : allocWithGenSnap cfg st size generation snap =
                  (.ok ({ st1 with totalMemory := snap + poolBlockSize st pidx }).blocks.length,
                    bumpPoolAllocated
                      (bumpPoolTotal
                        { { { st1 with totalMemory := snap + poolBlockSize st pidx } with
                              blocks :=
                                ({ st1 with totalMemory := snap + poolBlockSize st pidx }).blocks ++
                                  [Blk.new (poolBlockSize st pidx) generation] } with
                            stats := recordAllocation st1.stats (poolBlockSize st pidx) } pidx)
                      pidx) := by
                simp only [allocWithGenSnap, if_neg h1, hgp, if_neg h2', hfg, if_pos h3]
              rw [hres]
              constructor
              · constructor
                · intro h
                  exact absurd h (by simp)
                · rintro (h | ⟨pidx', hok, _, hb⟩ | ⟨pidx', hok, _, _, _, hne⟩)
                  · exact absurd h h1
                  · simp only [Except.ok.injEq] at hok
                    subst hok
                    exact absurd hb h2
                  · simp only [Except.ok.injEq] at hok
                    subst hok
                    rw [hfg] at hne
                    exact absurd h3 hne
              · intro e he
                exact absurd he (by simp)
            · have hres : allocWithGenSnap cfg st size generation snap =
                  (.error .outOfMemory, st1) := by
                simp only [allocWithGenSnap, if_neg h1, hgp, if_neg h2', hfg, if_neg h3]
              rw [hres]
              have hb : st1.blocks = st.blocks := by
                have := freeGrab_none_blocks st pidx (by rw [hfg])
                rw [hfg] at this
                exact this
              have ht : st1.totalMemory = st.totalMemory := by
                have := freeGrab_totalMemory st pidx
                rw [hfg] at this
                exact this
              have hs : st1.stats = st.stats := by
                have := freeGrab_stats st pidx
                rw [hfg] at this
                exact this
              constructor
              · constructor
                · intro _
                  refine Or.inr (Or.inr ⟨pidx, rfl, h1, h2, ?_, ?_⟩)
                  · rw [hfg]
                  · rw [hfg]
                    exact h3
                · intro _
                  rfl
              · intro e _
                exact ⟨hb, ht, hs⟩

/-- Witness for C6: with a stale snapshot (5) differing from the state's
`total_memory` (0), the one-shot CAS loses and the call reports
OutOfMemory. -/
theorem c6_witness :
    (allocWithGenSnap defaultConfig (initState defaultConfig) 64 0 5).1 =
      .error .outOfMemory :=
  (c6_oom_exactly defaultConfig (initState defaultConfig) 64 0 5 6 (by decide) rfl).1.mpr
    (Or.inr (Or.inr ⟨0, rfl, by decide, by decide, rfl, by decide⟩))

theorem getElem?_isSome_set (l : List SizePoolSt) (j i : Nat) (x : SizePoolSt) :
    ((l.set j x)[i]?).isSome = (l[i]?).isSome := by
  rw [List.getElem?_set]
  by_cases hij : j = i
  · subst hij
    by_cases hl : j < l.length
    · simp [hl, List.getElem?_eq_getElem hl]
    · simp [hl, List.getElem?_eq_none (Nat.le_of_not_lt hl)]
  · simp [hij]

theorem getSizePool_congr (cfg : Config) (pools1 pools2 : List SizePoolSt) (size : Nat)
    (h : ∀ i : Nat, (pools1[i]?).isSome = (pools2[i]?).isSome) :
    getSizePool cfg pools1 size = getSizePool cfg pools2 size := by
  rw [getSizePool, getSizePool]
  by_cases h1 : nextPow2 size < cfg.minBlockSize
  · rw [if_pos h1, if_pos h1]
  · rw [if_neg h1, if_neg h1]
    have := h (tz (nextPow2 size) - tz cfg.minBlockSize)
    cases hp1 : pools1[tz (nextPow2 size) - tz cfg.minBlockSize]? with
    | none =>
      rw [hp1] at this
      cases hp2 : pools2[tz (nextPow2 size) - tz cfg.minBlockSize]? with
      | none => simp only [hp1, hp2]
      | some q => rw [hp2] at this; simp at this
    | some q =>
      rw [hp1] at this
      cases hp2 : pools2[tz (nextPow2 size) - tz cfg.minBlockSize]? with
      | none => rw [hp2] at this; simp at this
      | some q' => simp only [hp1, hp2]

theorem bumpPoolAllocated_totalMemory (st : AllocSt) (pidx : Nat) :
    (bumpPoolAllocated st pidx).totalMemory = st.totalMemory := by
  rw [bumpPoolAllocated]
  cases hp : st.pools[pidx]? with
  | none => rfl
  | some p => rfl

theorem bumpPoolAllocated_blocks (st : AllocSt) (pidx : Nat) :
    (bumpPoolAllocated st pidx).blocks = st.blocks := by
  rw [bumpPoolAllocated]
  cases hp : st.pools[pidx]? with
  | none => rfl
  | some p => rfl

theorem bumpPoolAllocated_pools_isSome (st : AllocSt) (pidx : Nat) (i : Nat) :
    ((bumpPoolAllocated st pidx).pools[i]?).isSome = (st.pools[i]?).isSome := by
  rw [bumpPoolAllocated]
  cases hp : st.pools[pidx]? with
  | none => rfl
  | some p => exact getElem?_isSome_set st.pools pidx i _

theorem wsub_lt (aa bb : Nat) (ha : aa < W64) (hb : bb < W64) :
    (bb ≤ aa → wsub aa bb = aa - bb) ∧ (aa < bb → wsub aa bb = aa + (W64 - bb)) := by
  have hW : W64 = 18446744073709551616 := by norm_num [W64]
  unfold wsub
  rw [hW] at ha hb ⊢
  constructor <;> intro h <;> omega

theorem pushFree_totalMemory (st : AllocSt) (pidx id : Nat) :
    (pushFree st pidx id).totalMemory = st.totalMemory := by
  rw [pushFree]
  cases hp : st.pools[pidx]? with
  | none => rfl
  | some p => rfl

theorem decPoolAllocated_totalMemory (st : AllocSt) (pidx : Nat) :
    (decPoolAllocated st pidx).totalMemory = st.totalMemory := by
  rw [decPoolAllocated]
  cases hp : st.pools[pidx]? with
  | none => rfl
  | some p => rfl

theorem poolDeallocate_totalMemory (cfg : Config) (st : AllocSt) (id : Nat) (b : Blk)
    (pidx2 : Nat) (st2 : AllocSt)
    (hb : st.blocks[id]? = some b)
    (hgp : getSizePool cfg st.pools b.size = .ok pidx2)
    (hde : poolDeallocate cfg st id = some st2) :
    st2.totalMemory = wsub st.totalMemory b.size := by
  simp only [poolDeallocate, hb, hgp, Option.some.injEq] at hde
  rw [← hde, decPoolAllocated_totalMemory]
  show (pushFree (setBlk _ id _) pidx2 id).totalMemory = _
  rw [pushFree_totalMemory]
  rfl

/-- C8: a block served by reuse from a SizePool free-list is returned with no
`total_memory` increment; the following `MemoryPool::deallocate` decrements
`total_memory` by the block's size anyway, so the allocate/deallocate pair
leaves `total_memory` strictly lower than before it, and once `total_memory`
is smaller than the block size the `fetch_sub` wraps around modulo 2^64. -/
theorem c8_reuse_drift (cfg : Config) (st : AllocSt) (size generation pidx pidx2 id : Nat)
    (b : Blk) (p : SizePoolSt) (rest : List Nat) (st2 : AllocSt)
    (hgp : getSizePool cfg st.pools size = .ok pidx)
    (hp : st.pools[pidx]? = some p)
    (hrest : p.freeBlocks = id :: rest)
    (hb : st.blocks[id]? = some b)
    (hfree : b.state.testBit 63 = false)
    (h1 : ¬ nextPow2 size > cfg.maxBlockSize)
    (h2 : ¬ st.totalMemory + poolBlockSize st pidx > cfg.maxMemory * 3 / 4)
    (hgp2 : getSizePool cfg st.pools b.size = .ok pidx2)
    (hde : poolDeallocate cfg (allocWithGen cfg st size generation).2 id = some st2)
    (htot : st.totalMemory < W64) (hbsz : b.size < W64) :
    (allocWithGen cfg st size generation).1 = .ok id ∧
    (allocWithGen cfg st size generation).2.totalMemory = st.totalMemory ∧
    st2.totalMemory = wsub st.totalMemory b.size ∧
    (b.size ≤ st.totalMemory → st2.totalMemory = st.totalMemory - b.size) ∧
    (0 < b.size → b.size ≤ st.totalMemory → st2.totalMemory < st.totalMemory) ∧
    (st.totalMemory < b.size → st2.totalMemory = st.totalMemory + (W64 - b.size)) := by
  have hgb : getBlk (st.setPool pidx { p with freeBlocks := rest }) id = b := by
    simp [getBlk, AllocSt.setPool, hb]
  have hacq : ((getBlk (st.setPool pidx { p with freeBlocks := rest }) id).tryAcquire).1 = true := by
    rw [hgb, tryAcquire_fst, hfree]
    rfl
  have hfg : freeGrab st pidx =
      (some id, setBlk (st.setPool pidx { p with freeBlocks := rest }) id
        ((getBlk (st.setPool pidx { p with freeBlocks := rest }) id).tryAcquire).2) := by
    simp only [freeGrab, hp, hrest, hacq, if_true]
  have hres : allocWithGen cfg st size generation =
      (.ok id, bumpPoolAllocated
        (setBlk (st.setPool pidx { p with freeBlocks := rest }) id
          ((getBlk (st.setPool pidx { p with freeBlocks := rest }) id).tryAcquire).2) pidx) := by
    simp only [allocWithGen, allocWithGenSnap, if_neg h1, hgp, if_neg h2, hfg]
  have hid : id < st.blocks.length := by
    rcases List.getElem?_eq_some.mp hb with ⟨hlt, _⟩
    exact hlt
  have hblocksA : (allocWithGen cfg st size generation).2.blocks[id]? =
      some ((b.tryAcquire).2) := by
    rw [hres]
    rw [bumpPoolAllocated_blocks]
    show ((st.setPool pidx { p with freeBlocks := rest }).blocks.set id
        ((getBlk (st.setPool pidx { p with freeBlocks := rest }) id).tryAcquire).2)[id]? = _
    rw [hgb]
    rw [List.getElem?_set]
    simp only [if_pos rfl]
    have hid' : id < (st.setPool pidx { p with freeBlocks := rest }).blocks.length := hid
    simp [hid']
  have hshape : ∀ i : Nat,
      (((allocWithGen cfg st size generation).2.pools[i]?).isSome) = ((st.pools[i]?).isSome) := by
    intro i
    rw [hres]
    rw [bumpPoolAllocated_pools_isSome]
    show (((st.setPool pidx { p with freeBlocks := rest }).pools)[i]?).isSome = _
    exact getElem?_isSome_set st.pools pidx i _
  have hgp2' : getSizePool cfg (allocWithGen cfg st size generation).2.pools
      ((b.tryAcquire).2).size = .ok pidx2 := by
    have : getSizePool cfg (allocWithGen cfg st size generation).2.pools b.size =
        getSizePool cfg st.pools b.size :=
      getSizePool_congr cfg _ st.pools b.size hshape
    show getSizePool cfg (allocWithGen cfg st size generation).2.pools b.size = .ok pidx2
    rw [this]
    exact hgp2
  have htotA : (allocWithGen cfg st size generation).2.totalMemory = st.totalMemory := by
    rw [hres, bumpPoolAllocated_totalMemory]
    rfl
  have h3 : st2.totalMemory = wsub st.totalMemory b.size := by
    have := poolDeallocate_totalMemory cfg (allocWithGen cfg st size generation).2 id
      ((b.tryAcquire).2) pidx2 st2 hblocksA hgp2' hde
    rw [this, htotA]
    rfl
  have harith := wsub_lt st.totalMemory b.size htot hbsz
  refine ⟨by rw [hres], htotA, h3, ?_, ?_, ?_⟩
  · intro hle
    rw [h3, harith.1 hle]
  · intro hpos hle
    rw [h3, harith.1 hle]
    omega
  · intro hlt
    rw [h3, harith.2 hlt]

/-- Witness for C8: a one-pool allocator whose free-list holds block 0;
reusing it leaves total_memory at 4, deallocating drops it to 0 — strictly
below the 4 it started at. -/
theorem c8_witness :
    (allocWithGen tinyConfig tinyState 4 1).1 = .ok 0 ∧
    (allocWithGen tinyConfig tinyState 4 1).2.totalMemory = tinyState.totalMemory ∧
    tinyAfter.totalMemory = wsub tinyState.totalMemory tinyBlk.size ∧
    (tinyBlk.size ≤ tinyState.totalMemory →
      tinyAfter.totalMemory = tinyState.totalMemory - tinyBlk.size) ∧
    (0 < tinyBlk.size → tinyBlk.size ≤ tinyState.totalMemory →
      tinyAfter.totalMemory < tinyState.totalMemory) ∧
    (tinyState.totalMemory < tinyBlk.size →
      tinyAfter.totalMemory = tinyState.totalMemory + (W64 - tinyBlk.size)) :=
  c8_reuse_drift tinyConfig tinyState 4 1 0 0 0 tinyBlk tinyPool [] tinyAfter
    rfl rfl rfl rfl (by decide) (by decide) (by decide) rfl rfl (by decide) (by decide)

theorem getBlk_data_zero (st : AllocSt) (id : Nat) (h : stAllZero st id) :
    ∀ x ∈ (getBlk st id).data, x = 0 := by
  intro x hx
  rw [getBlk] at hx
  cases hb : st.blocks[id]? with
  | none => rw [hb] at hx; simp [dummyBlk] at hx
  | some bb => rw [hb] at hx; exact h bb hb x hx

theorem stAllZero_of_blocks_eq (st st' : AllocSt) (id : Nat)
    (hb : st'.blocks = st.blocks) (h : stAllZero st id) : stAllZero st' id := by
  intro b' hb'
  exact h b' (hb ▸ hb')

theorem stAllZero_set (st : AllocSt) (id j : Nat) (b : Blk) (h : stAllZero st id)
    (hz : j = id → ∀ x ∈ b.data, x = 0) : stAllZero (setBlk st j b) id := by
  intro b' hb' x hx
  have hb2 : (st.blocks.set j b)[id]? = some b' := hb'
  rw [List.getElem?_set] at hb2
  by_cases hij : j = id
  · rw [if_pos hij] at hb2
    by_cases hlen : j < st.blocks.length
    · rw [if_pos hlen] at hb2
      cases hb2
      exact hz hij x hx
    · rw [if_neg hlen] at hb2
      cases hb2
  · rw [if_neg hij] at hb2
    exact h b' hb2 x hx

theorem stAllZero_append_new (st : AllocSt) (id : Nat) (b : Blk) (h : stAllZero st id)
    (hznew : ∀ x ∈ b.data, x = 0) :
    stAllZero { st with blocks := st.blocks ++ [b] } id := by
  intro b' hb' x hx
  have hb2 : (st.blocks ++ [b])[id]? = some b' := hb'
  by_cases hid : id < st.blocks.length
  · rw [List.getElem?_append_left hid] at hb2
    exact h b' hb2 x hx
  · rw [List.getElem?_append_right (Nat.le_of_not_lt hid)] at hb2
    cases hdiff : id - st.blocks.length with
    | zero =>
      rw [hdiff] at hb2
      simp only [List.getElem?_cons_zero, Option.some.injEq] at hb2
      subst hb2
      exact hznew x hx
    | succ n =>
      rw [hdiff] at hb2
      simp at hb2

theorem bumpClassCount_blocks (st : AllocSt) (cidx : Nat) :
    (bumpClassCount st cidx).blocks = st.blocks := by
  rw [bumpClassCount]
  cases h : st.classes[cidx]? with
  | none => rfl
  | some c => rfl

theorem bumpPoolTotal_blocks (st : AllocSt) (pidx : Nat) :
    (bumpPoolTotal st pidx).blocks = st.blocks := by
  rw [bumpPoolTotal]
  cases h : st.pools[pidx]? with
  | none => rfl
  | some p => rfl

theorem pushFree_blocks (st : AllocSt) (pidx id : Nat) :
    (pushFree st pidx id).blocks = st.blocks := by
  rw [pushFree]
  cases h : st.pools[pidx]? with
  | none => rfl
  | some p => rfl

theorem decPoolAllocated_blocks (st : AllocSt) (pidx : Nat) :
    (decPoolAllocated st pidx).blocks = st.blocks := by
  rw [decPoolAllocated]
  cases h : st.pools[pidx]? with
  | none => rfl
  | some p => rfl

theorem stAllZero_classAttempt (st : AllocSt) (cidx : Nat) (hot : Bool) (id : Nat)
    (h : stAllZero st id) : stAllZero (classAttempt st cidx hot).2 id := by
  cases hcl : st.classes[cidx]? with
  | none => simpa [classAttempt, hcl] using h
  | some c =>
    cases hq : (if hot then c.hotQueue else c.coldQueue) with
    | nil => simpa [classAttempt, hcl, hq] using h
    | cons jid rest =>
      simp only [classAttempt, hcl, hq]
      have h1 : stAllZero (st.setClass cidx
          (if hot then { c with hotQueue := rest } else { c with coldQueue := rest })) id :=
        stAllZero_of_blocks_eq st _ id (by cases hot <;> rfl) h
      set st1 := st.setClass cidx
        (if hot then { c with hotQueue := rest } else { c with coldQueue := rest }) with hst1
      by_cases hsz : (getBlk st1 jid).size = c.size
      · rw [if_pos hsz]
        have h2 : stAllZero (setBlk st1 jid ((getBlk st1 jid).tryAcquire).2) id := by
          apply stAllZero_set st1 id jid _ h1
          intro hji x hx
          subst hji
          exact getBlk_data_zero st1 jid h1 x hx
        by_cases hacq : ((getBlk st1 jid).tryAcquire).1 = true
        · rw [if_pos hacq]
          exact stAllZero_of_blocks_eq _ _ id (bumpClassCount_blocks _ cidx) h2
        · rw [if_neg hacq]
          exact h2
      · rw [if_neg hsz]
        exact h1

theorem stAllZero_classGetBlock (st : AllocSt) (cidx : Nat) (id : Nat)
    (h : stAllZero st id) : stAllZero (classGetBlock st cidx).2 id := by
  cases h1 : classAttempt st cidx true with
  | mk o1 s1 =>
    have hz1 : stAllZero s1 id := by
      have := stAllZero_classAttempt st cidx true id h
      rw [h1] at this
      exact this
    cases o1 with
    | some jid =>
      simp only [classGetBlock, h1]
      exact hz1
    | none =>
      cases h2 : classAttempt s1 cidx true with
      | mk o2 s2 =>
        have hz2 : stAllZero s2 id := by
          have := stAllZero_classAttempt s1 cidx true id hz1
          rw [h2] at this
          exact this
        cases o2 with
        | some jid =>
          simp only [classGetBlock, h1, h2]
          exact hz2
        | none =>
          simp only [classGetBlock, h1, h2]
          exact stAllZero_classAttempt s2 cidx false id hz2

theorem stAllZero_freeGrab (st : AllocSt) (pidx : Nat) (id : Nat)
    (h : stAllZero st id) : stAllZero (freeGrab st pidx).2 id := by
  cases hp : st.pools[pidx]? with
  | none => simpa [freeGrab, hp] using h
  | some p =>
    cases hf : p.freeBlocks with
    | nil => simpa [freeGrab, hp, hf] using h
    | cons jid rest =>
      simp only [freeGrab, hp, hf]
      have h1 : stAllZero (st.setPool pidx { p with freeBlocks := rest }) id :=
        stAllZero_of_blocks_eq st _ id rfl h
      set st1 := st.setPool pidx { p with freeBlocks := rest } with hst1
      have h2 : stAllZero (setBlk st1 jid ((getBlk st1 jid).tryAcquire).2) id := by
        apply stAllZero_set st1 id jid _ h1
        intro hji x hx
        subst hji
        exact getBlk_data_zero st1 jid h1 x hx
      by_cases hacq : ((getBlk st1 jid).tryAcquire).1 = true
      · rw [if_pos hacq]
        exact h2
      · rw [if_neg hacq]
        exact h2

theorem stAllZero_allocWithGenSnap (cfg : Config) (st : AllocSt)
    (size generation snap : Nat) (id : Nat) (h : stAllZero st id) :
    stAllZero (allocWithGenSnap cfg st size generation snap).2 id := by
  by_cases h1 : nextPow2 size > cfg.maxBlockSize
  · simpa [allocWithGenSnap, if_pos h1] using h
  · cases hgp : getSizePool cfg st.pools size with
    | error e => simpa [allocWithGenSnap, if_neg h1, hgp] using h
    | ok pidx =>
      by_cases h2 : snap + poolBlockSize st pidx > cfg.maxMemory * 3 / 4
      · simpa [allocWithGenSnap, if_neg h1, hgp, if_pos h2] using h
      · cases hfg : freeGrab st pidx with
        | mk o st1 =>
          have hz1 : stAllZero st1 id := by
            have := stAllZero_freeGrab st pidx id h
            rw [hfg] at this
            exact this
          cases o with
          | some jid =>
            simp only [allocWithGenSnap, if_neg h1, hgp, if_neg h2, hfg]
            exact stAllZero_of_blocks_eq _ _ id (bumpPoolAllocated_blocks _ pidx) hz1
          | none =>
            by_cases h3 : st1.totalMemory = snap
            · simp only [allocWithGenSnap, if_neg h1, hgp, if_neg h2, hfg, if_pos h3]
              have hznew : ∀ x ∈ (Blk.new (poolBlockSize st pidx) generation).data, x = 0 := by
                intro x hx
                exact (List.mem_replicate.mp hx).2
              have happ : stAllZero
                  { { st1 with totalMemory := snap + poolBlockSize st pidx } with
                      blocks := ({ st1 with totalMemory := snap + poolBlockSize st pidx }).blocks ++
                        [Blk.new (poolBlockSize st pidx) generation] } id := by
                apply stAllZero_append_new _ id _ _ hznew
                exact stAllZero_of_blocks_eq _ _ id rfl hz1
              apply stAllZero_of_blocks_eq _ _ id _
                (stAllZero_of_blocks_eq _ _ id rfl happ)
              rw [bumpPoolAllocated_blocks, bumpPoolTotal_blocks]
            · simp only [allocWithGenSnap, if_neg h1, hgp, if_neg h2, hfg, if_neg h3]
              exact hz1

theorem stAllZero_poolDeallocate (cfg : Config) (st : AllocSt) (jid id : Nat)
    (st2 : AllocSt) (hde : poolDeallocate cfg st jid = some st2)
    (h : stAllZero st id) : stAllZero st2 id := by
  cases hb : st.blocks[jid]? with
  | none => rw [poolDeallocate, hb] at hde; cases hde
  | some b =>
    cases hgp : getSizePool cfg st.pools b.size with
    | error e =>
      rw [poolDeallocate, hb] at hde
      simp only [hgp, Option.some.injEq] at hde
      exact stAllZero_of_blocks_eq st st2 id (by rw [← hde]) h
    | ok pidx =>
      rw [poolDeallocate, hb] at hde
      simp only [hgp, Option.some.injEq] at hde
      rw [← hde]
      set st1 := { st with totalMemory := wsub st.totalMemory b.size } with hst1
      have hz1 : stAllZero st1 id := stAllZero_of_blocks_eq st st1 id rfl h
      have hz2 : stAllZero (setBlk st1 jid (getBlk st1 jid).release) id := by
        apply stAllZero_set st1 id jid _ hz1
        intro hji x hx
        subst hji
        exact getBlk_data_zero st1 jid hz1 x hx
      apply stAllZero_of_blocks_eq _ _ id _ hz2
      rw [decPoolAllocated_blocks]
      show (pushFree (setBlk st1 jid (getBlk st1 jid).release) pidx jid).blocks = _
      rw [pushFree_blocks]

theorem classReturnBlock_blocks (st : AllocSt) (cidx id : Nat) (st3 : AllocSt)
    (h : classReturnBlock st cidx id = some st3) : st3.blocks = st.blocks := by
  cases hcl : st.classes[cidx]? with
  | none => rw [classReturnBlock, hcl] at h; cases h
  | some c =>
    simp only [classReturnBlock, hcl] at h
    by_cases hsz : (getBlk st id).size ≠ c.size
    · rw [if_pos hsz] at h
      cases h
    · rw [if_neg hsz] at h
      by_cases hcnt : c.allocationCount &&& 7 = 0
      · rw [if_pos hcnt] at h
        cases h
        rfl
      · rw [if_neg hcnt] at h
        cases h
        rfl

theorem stAllZero_cacheDeallocate (cfg : Config) (st : AllocSt) (jid id : Nat)
    (st' : AllocSt) (hde : cacheDeallocate cfg st jid = some st')
    (h : stAllZero st id) : stAllZero st' id := by
  cases hb : st.blocks[jid]? with
  | none => rw [cacheDeallocate, hb] at hde; cases hde
  | some b =>
    rw [cacheDeallocate, hb] at hde
    simp only [] at hde
    have hz1 : stAllZero (setBlk st jid b.release) id := by
      apply stAllZero_set st id jid _ h
      intro hji x hx
      subst hji
      have hbd : b.release.data = b.data := rfl
      rw [hbd] at hx
      exact h b hb x hx
    set st1 := setBlk st jid b.release with hst1
    have hz2 : stAllZero (setBlk st1 jid (zeroBlockOp cfg (getBlk st1 jid))) id := by
      apply stAllZero_set st1 id jid _ hz1
      intro hji x hx
      subst hji
      rw [zeroBlockOp] at hx
      by_cases hzc : cfg.zeroOnDealloc = true
      · rw [if_pos hzc] at hx
        have : (getBlk st1 jid).clear.data =
            List.replicate (getBlk st1 jid).size 0 := rfl
        rw [this] at hx
        exact (List.mem_replicate.mp hx).2
      · rw [if_neg hzc] at hx
        exact getBlk_data_zero st1 jid hz1 x hx
    set st2 := setBlk st1 jid (zeroBlockOp cfg (getBlk st1 jid)) with hst2
    cases hci : getSizeClassIndex b.size with
    | some cidx =>
      simp only [hci] at hde
      cases hrb : classReturnBlock st2 cidx jid with
      | none => simp only [hrb] at hde; cases hde
      | some st3 =>
        simp only [hrb, Option.some.injEq] at hde
        rw [← hde]
        apply stAllZero_of_blocks_eq st3 _ id rfl
        exact stAllZero_of_blocks_eq st2 st3 id (classReturnBlock_blocks st2 cidx jid st3 hrb) hz2
    | none =>
      simp only [hci] at hde
      exact stAllZero_poolDeallocate cfg st2 jid id st' hde hz2

theorem stAllZero_cacheMissPath (cfg : Config) (st : AllocSt) (size : Nat) (id : Nat)
    (h : stAllZero st id) : stAllZero (cacheMissPath cfg st size).2 id := by
  rw [cacheMissPath, newGeneration]
  apply stAllZero_allocWithGenSnap
  exact stAllZero_of_blocks_eq st _ id rfl h

theorem stAllZero_cacheAllocate (cfg : Config) (st : AllocSt) (size : Nat) (id : Nat)
    (h : stAllZero st id) : stAllZero (cacheAllocate cfg st size).2 id := by
  cases hci : getSizeClassIndex size with
  | none =>
    simp only [cacheAllocate, hci]
    exact stAllZero_cacheMissPath cfg st size id h
  | some cidx =>
    cases hgb : classGetBlock st cidx with
    | mk o st1 =>
      have hz1 : stAllZero st1 id := by
        have := stAllZero_classGetBlock st cidx id h
        rw [hgb] at this
        exact this
      cases o with
      | some jid =>
        simp only [cacheAllocate, hci, hgb]
        exact stAllZero_of_blocks_eq st1 _ id rfl hz1
      | none =>
        simp only [cacheAllocate, hci, hgb]
        exact stAllZero_cacheMissPath cfg st1 size id hz1

theorem stAllZero_topAllocate (cfg : Config) (st : AllocSt) (size : Nat) (id : Nat)
    (h : stAllZero st id) : stAllZero (topAllocate cfg st size).2 id := by
  cases hca : cacheAllocate cfg st size with
  | mk r st1 =>
    have hz1 : stAllZero st1 id := by
      have := stAllZero_cacheAllocate cfg st size id h
      rw [hca] at this
      exact this
    cases r with
    | ok jid =>
      cases hv : verifyGeneration cfg st1 (getBlk st1 jid) with
      | error e =>
        simp only [topAllocate, hca, hv]
        exact hz1
      | ok u =>
        simp only [topAllocate, hca, hv]
        exact stAllZero_of_blocks_eq st1 _ id rfl hz1
    | error e =>
      simp only [topAllocate, hca]
      rw [newGeneration]
      apply stAllZero_allocWithGenSnap
      exact stAllZero_of_blocks_eq st1 _ id rfl hz1

theorem stAllZero_stepWrite (st : AllocSt) (jid offset : Nat) (bs : List Nat)
    (id : Nat) (st' : AllocSt) (hne : jid ≠ id)
    (hs : stepWrite st jid offset bs = some st') (h : stAllZero st id) :
    stAllZero st' id := by
  cases hb : st.blocks[jid]? with
  | none => rw [stepWrite, hb] at hs; cases hs
  | some b =>
    rw [stepWrite, hb] at hs
    simp only [] at hs
    cases hw : b.write offset bs with
    | error e =>
      simp only [hw, Option.some.injEq] at hs
      exact stAllZero_of_blocks_eq st st' id (by rw [← hs]) h
    | ok b' =>
      simp only [hw, Option.some.injEq] at hs
      rw [← hs]
      apply stAllZero_set st id jid _ h
      intro hji
      exact absurd hji hne

theorem stAllZero_step (cfg : Config) (st : AllocSt) (op : AOp) (id : Nat)
    (st' : AllocSt) (hop : ∀ offset bs, op ≠ AOp.blockWrite id offset bs)
    (hs : step cfg st op = some st') (h : stAllZero st id) : stAllZero st' id := by
  cases op with
  | alloc size =>
    rw [step] at hs
    simp only [Option.some.injEq] at hs
    rw [← hs]
    exact stAllZero_topAllocate cfg st size id h
  | dealloc jid =>
    exact stAllZero_cacheDeallocate cfg st jid id st' hs h
  | blockWrite jid offset bs =>
    have hne : jid ≠ id := by
      intro he
      exact hop offset bs (by rw [he])
    exact stAllZero_stepWrite st jid offset bs id st' hne hs h

theorem stAllZero_runOps (cfg : Config) (ops : List AOp) (st st'' : AllocSt) (id : Nat)
    (hw : ∀ offset bs, AOp.blockWrite id offset bs ∉ ops)
    (hrun : runOps cfg st ops = some st'') (h : stAllZero st id) : stAllZero st'' id := by
  induction ops generalizing st with
  | nil =>
    rw [runOps] at hrun
    simp only [Option.some.injEq] at hrun
    rw [← hrun]
    exact h
  | cons op rest ih =>
    rw [runOps] at hrun
    cases hs : step cfg st op with
    | none => rw [hs] at hrun; cases hrun
    | some st1 =>
      rw [hs] at hrun
      have hop : ∀ offset bs, op ≠ AOp.blockWrite id offset bs := by
        intro offset bs he
        exact hw offset bs (he ▸ List.mem_cons_self op rest)
      have hw' : ∀ offset bs, AOp.blockWrite id offset bs ∉ rest := by
        intro offset bs he
        exact hw offset bs (List.mem_cons_of_mem op he)
      exact ih st1 hw' hrun (stAllZero_step cfg st op id st1 hop hs h)

theorem cacheDeallocate_establishes_zero (cfg : Config) (st : AllocSt) (id : Nat)
    (st' : AllocSt) (hz : cfg.zeroOnDealloc = true)
    (hde : cacheDeallocate cfg st id = some st') : stAllZero st' id := by
  cases hb : st.blocks[id]? with
  | none => rw [cacheDeallocate, hb] at hde; cases hde
  | some b =>
    rw [cacheDeallocate, hb] at hde
    simp only [] at hde
    set st1 := setBlk st id b.release with hst1
    have hz2 : stAllZero (setBlk st1 id (zeroBlockOp cfg (getBlk st1 id))) id := by
      intro b' hb' x hx
      have hb2 : (st1.blocks.set id (zeroBlockOp cfg (getBlk st1 id)))[id]? = some b' := hb'
      rw [List.getElem?_set] at hb2
      simp only [if_pos rfl] at hb2
      have hlen : id < st1.blocks.length := by
        have hlt : id < st.blocks.length := by
          rcases List.getElem?_eq_some.mp hb with ⟨hlt, _⟩
          exact hlt
        show id < (st.blocks.set id b.release).length
        rw [List.length_set]
        exact hlt
      rw [if_pos hlen] at hb2
      cases hb2
      rw [zeroBlockOp, if_pos hz] at hx
      have : (getBlk st1 id).clear.data = List.replicate (getBlk st1 id).size 0 := rfl
      rw [this] at hx
      exact (List.mem_replicate.mp hx).2
    set st2 := setBlk st1 id (zeroBlockOp cfg (getBlk st1 id)) with hst2
    cases hci : getSizeClassIndex b.size with
    | some cidx =>
      simp only [hci] at hde
      cases hrb : classReturnBlock st2 cidx id with
      | none => simp only [hrb] at hde; cases hde
      | some st3 =>
        simp only [hrb, Option.some.injEq] at hde
        rw [← hde]
        apply stAllZero_of_blocks_eq st2 _ id _ hz2
        show st3.blocks = st2.blocks
        exact classReturnBlock_blocks st2 cidx id st3 hrb
    | none =>
      simp only [hci] at hde
      exact stAllZero_poolDeallocate cfg st2 id id st' hde hz2

/-- C2: with `zero_on_dealloc = true`, once `Allocator::deallocate` completes
on a block its bytes are all zero, they stay zero across any further
allocator operations that do not write to that block, and in particular a
later allocate that returns that same block hands it over with every byte
zero. -/
theorem c2_zero_on_dealloc (cfg : Config) (st : AllocSt) (id : Nat) (st' st'' : AllocSt)
    (ops : List AOp) (sz : Nat)
    (hz : cfg.zeroOnDealloc = true)
    (hde : cacheDeallocate cfg st id = some st')
    (hw : ∀ offset bs, AOp.blockWrite id offset bs ∉ ops)
    (hrun : runOps cfg st' ops = some st'')
    (_hret : (topAllocate cfg st'' sz).1 = .ok id) :
    stAllZero st' id ∧ stAllZero st'' id ∧ stAllZero (topAllocate cfg st'' sz).2 id := by
  have h1 : stAllZero st' id := cacheDeallocate_establishes_zero cfg st id st' hz hde
  have h2 : stAllZero st'' id := stAllZero_runOps cfg ops st' st'' id hw hrun h1
  exact ⟨h1, h2, stAllZero_topAllocate cfg st'' sz id h2⟩

/-- Witness for C2: allocate 64 bytes on a fresh default allocator,
deallocate block 0, run no further operations, and re-allocate 64 bytes,
which returns block 0 again with all bytes zero. -/
theorem c2_witness :
    stAllZero deallocOnceState 0 ∧ stAllZero deallocOnceState 0 ∧
    stAllZero (topAllocate defaultConfig deallocOnceState 64).2 0 :=
  c2_zero_on_dealloc defaultConfig allocOnceState 0 deallocOnceState deallocOnceState [] 64
    rfl rfl (by intro offset bs hmem; exact List.not_mem_nil _ hmem) rfl rfl

theorem getSizePool_size_congr (cfg : Config) (pools : List SizePoolSt) (size size' : Nat)
    (h2 : nextPow2 size = nextPow2 size') :
    (∃ pidx, getSizePool cfg pools size = .ok pidx ∧ getSizePool cfg pools size' = .ok pidx) ∨
    (∃ e e', getSizePool cfg pools size = .error e ∧ getSizePool cfg pools size' = .error e') := by
  rw [getSizePool, getSizePool, h2]
  by_cases h1 : nextPow2 size' < cfg.minBlockSize
  · rw [if_pos h1, if_pos h1]
    exact Or.inr ⟨_, _, rfl, rfl⟩
  · rw [if_neg h1, if_neg h1]
    cases hp : pools[tz (nextPow2 size') - tz cfg.minBlockSize]? with
    | none =>
      refine Or.inr ⟨.invalidSize size cfg.maxBlockSize, .invalidSize size' cfg.maxBlockSize,
        ?_, ?_⟩ <;> simp only [hp]
    | some p =>
      refine Or.inl ⟨tz (nextPow2 size') - tz cfg.minBlockSize, ?_, ?_⟩ <;> simp only [hp]

theorem allocWithGenSnap_size_congr (cfg : Config) (st : AllocSt)
    (size size' generation snap : Nat) (h2 : nextPow2 size = nextPow2 size') :
    (allocWithGenSnap cfg st size generation snap).2 =
      (allocWithGenSnap cfg st size' generation snap).2 ∧
    ((∃ id, (allocWithGenSnap cfg st size generation snap).1 = .ok id ∧
        (allocWithGenSnap cfg st size' generation snap).1 = .ok id) ∨
      (∃ e e', (allocWithGenSnap cfg st size generation snap).1 = .error e ∧
        (allocWithGenSnap cfg st size' generation snap).1 = .error e')) := by
  by_cases h1 : nextPow2 size > cfg.maxBlockSize
  · have h1' : nextPow2 size' > cfg.maxBlockSize := h2 ▸ h1
    have e1 : allocWithGenSnap cfg st size generation snap = (.error .outOfMemory, st) := by
      simp only [allocWithGenSnap, if_pos h1]
    have e2 : allocWithGenSnap cfg st size' generation snap = (.error .outOfMemory, st) := by
      simp only [allocWithGenSnap, if_pos h1']
    rw [e1, e2]
    exact ⟨rfl, Or.inr ⟨_, _, rfl, rfl⟩⟩
  · have h1' : ¬ nextPow2 size' > cfg.maxBlockSize := h2 ▸ h1
    rcases getSizePool_size_congr cfg st.pools size size' h2 with
      ⟨pidx, hg1, hg2⟩ | ⟨e, e', hg1, hg2⟩
    · by_cases hb : snap + poolBlockSize st pidx > cfg.maxMemory * 3 / 4
      · have e1 : allocWithGenSnap cfg st size generation snap = (.error .outOfMemory, st) := by
          simp only [allocWithGenSnap, if_neg h1, hg1, if_pos hb]
        have e2 : allocWithGenSnap cfg st size' generation snap = (.error .outOfMemory, st) := by
          simp only [allocWithGenSnap, if_neg h1', hg2, if_pos hb]
        rw [e1, e2]
        exact ⟨rfl, Or.inr ⟨_, _, rfl, rfl⟩⟩
      · cases hfg : freeGrab st pidx with
        | mk o st1 =>
          cases o with
          | some id =>
            have e1 : allocWithGenSnap cfg st size generation snap =
                (.ok id, bumpPoolAllocated st1 pidx) := by
              simp only [allocWithGenSnap, if_neg h1, hg1, if_neg hb, hfg]
            have e2 : allocWithGenSnap cfg st size' generation snap =
                (.ok id, bumpPoolAllocated st1 pidx) := by
              simp only [allocWithGenSnap, if_neg h1', hg2, if_neg hb, hfg]
            rw [e1, e2]
            exact ⟨rfl, Or.inl ⟨id, rfl, rfl⟩⟩
          | none =>
            by_cases h3 : st1.totalMemory = snap
            · have e1 : allocWithGenSnap cfg st size generation snap =
                  allocWithGenSnap cfg st size' generation snap := by
                simp only [allocWithGenSnap, if_neg h1, if_neg h1', hg1, hg2, if_neg hb, hfg,
                  if_pos h3]
              have e2 : ∃ id, (allocWithGenSnap cfg st size' generation snap).1 = .ok id := by
                simp only [allocWithGenSnap, if_neg h1', hg2, if_neg hb, hfg, if_pos h3]
                exact ⟨_, rfl⟩
              rcases e2 with ⟨id, hid⟩
              rw [e1]
              exact ⟨rfl, Or.inl ⟨id, hid, hid⟩⟩
            · have e1 : allocWithGenSnap cfg st size generation snap =
                  (.error .outOfMemory, st1) := by
                simp only [allocWithGenSnap, if_neg h1, hg1, if_neg hb, hfg, if_neg h3]
              have e2 : allocWithGenSnap cfg st size' generation snap =
                  (.error .outOfMemory, st1) := by
                simp only [allocWithGenSnap, if_neg h1', hg2, if_neg hb, hfg, if_neg h3]
              rw [e1, e2]
              exact ⟨rfl, Or.inr ⟨_, _, rfl, rfl⟩⟩
    · have e1 : allocWithGenSnap cfg st size generation snap = (.error e, st) := by
        simp only [allocWithGenSnap, if_neg h1, hg1]
      have e2 : allocWithGenSnap cfg st size' generation snap = (.error e', st) := by
        simp only [allocWithGenSnap, if_neg h1', hg2]
      rw [e1, e2]
      exact ⟨rfl, Or.inr ⟨_, _, rfl, rfl⟩⟩

theorem topAllocate_size_congr (cfg : Config) (st : AllocSt) (size size' : Nat)
    (h1 : getSizeClassIndex size = getSizeClassIndex size')
    (h2 : nextPow2 size = nextPow2 size') :
    (topAllocate cfg st size).2 = (topAllocate cfg st size').2 ∧
    ((∃ id, (topAllocate cfg st size).1 = .ok id ∧ (topAllocate cfg st size').1 = .ok id) ∨
      (∃ e e', (topAllocate cfg st size).1 = .error e ∧
        (topAllocate cfg st size').1 = .error e')) := by
  have hmiss : ∀ stx : AllocSt,
      (cacheMissPath cfg stx size).2 = (cacheMissPath cfg stx size').2 ∧
      ((∃ id, (cacheMissPath cfg stx size).1 = .ok id ∧
          (cacheMissPath cfg stx size').1 = .ok id) ∨
        (∃ e e', (cacheMissPath cfg stx size).1 = .error e ∧
          (cacheMissPath cfg stx size').1 = .error e')) := by
    intro stx
    rw [cacheMissPath, cacheMissPath, newGeneration]
    exact allocWithGenSnap_size_congr cfg _ size size' _ _ h2
  have hcache :
      (cacheAllocate cfg st size).2 = (cacheAllocate cfg st size').2 ∧
      ((∃ id, (cacheAllocate cfg st size).1 = .ok id ∧
          (cacheAllocate cfg st size').1 = .ok id) ∨
        (∃ e e', (cacheAllocate cfg st size).1 = .error e ∧
          (cacheAllocate cfg st size').1 = .error e')) := by
    cases hci : getSizeClassIndex size with
    | none =>
      have ha : cacheAllocate cfg st size = cacheMissPath cfg st size := by
        simp only [cacheAllocate, hci]
      have hb : cacheAllocate cfg st size' = cacheMissPath cfg st size' := by
        simp only [cacheAllocate, ← h1, hci]
      rw [ha, hb]
      exact hmiss st
    | some cidx =>
      cases hgb : classGetBlock st cidx with
      | mk o st1 =>
        cases o with
        | some id =>
          have ha : cacheAllocate cfg st size = cacheAllocate cfg st size' := by
            simp only [cacheAllocate, ← h1, hci, hgb]
          rw [ha]
          refine ⟨rfl, Or.inl ⟨id, ?_, ?_⟩⟩ <;> simp only [cacheAllocate, ← h1, hci, hgb]
        | none =>
          have ha : cacheAllocate cfg st size = cacheMissPath cfg st1 size := by
            simp only [cacheAllocate, hci, hgb]
          have hb : cacheAllocate cfg st size' = cacheMissPath cfg st1 size' := by
            simp only [cacheAllocate, ← h1, hci, hgb]
          rw [ha, hb]
          exact hmiss st1
  rcases hcache with ⟨hst, hr⟩
  rcases e1 : cacheAllocate cfg st size with ⟨r1, s1⟩
  rcases e2 : cacheAllocate cfg st size' with ⟨r2, s2⟩
  rw [e1, e2] at hst
  have hst' : s1 = s2 := hst
  subst hst'
  rcases hr with ⟨id, hr1, hr2⟩ | ⟨e, e', hr1, hr2⟩
  · rw [e1] at hr1
    rw [e2] at hr2
    have hr1' : r1 = .ok id := hr1
    have hr2' : r2 = .ok id := hr2
    subst hr1'
    subst hr2'
    cases hv : verifyGeneration cfg s1 (getBlk s1 id) with
    | error everr =>
      have t1 : topAllocate cfg st size = (.error everr, s1) := by
        rw [topAllocate, e1]
        simp only [hv]
      have t2 : topAllocate cfg st size' = (.error everr, s1) := by
        rw [topAllocate, e2]
        simp only [hv]
      rw [t1, t2]
      exact ⟨rfl, Or.inr ⟨_, _, rfl, rfl⟩⟩
    | ok u =>
      have t1 : topAllocate cfg st size =
          (.ok id, { s1 with stats := recordCacheHit s1.stats }) := by
        rw [topAllocate, e1]
        simp only [hv]
      have t2 : topAllocate cfg st size' =
          (.ok id, { s1 with stats := recordCacheHit s1.stats }) := by
        rw [topAllocate, e2]
        simp only [hv]
      rw [t1, t2]
      exact ⟨rfl, Or.inl ⟨id, rfl, rfl⟩⟩
  · rw [e1] at hr1
    rw [e2] at hr2
    have hr1' : r1 = .error e := hr1
    have hr2' : r2 = .error e' := hr2
    subst hr1'
    subst hr2'
    have t1 : topAllocate cfg st size = cacheMissPath cfg s1 size := by
      rw [topAllocate, e1]
      rfl
    have t2 : topAllocate cfg st size' = cacheMissPath cfg s1 size' := by
      rw [topAllocate, e2]
      rfl
    rw [t1, t2, cacheMissPath, cacheMissPath, newGeneration]
    exact allocWithGenSnap_size_congr cfg _ size size' _ _ h2

theorem clog2f_two_pow_sub_one (c : Nat) (hc : 2 ≤ c) :
    ∀ f, c ≤ f → clog2f f (2 ^ c - 1) = c := by
  intro f hf
  cases f with
  | zero => omega
  | succ f' =>
    have h4 : 4 ≤ 2 ^ c := by
      calc (4 : Nat) = 2 ^ 2 := by norm_num
      _ ≤ 2 ^ c := Nat.pow_le_pow_right (by norm_num) hc
    have h1 : ¬ (2 ^ c - 1 ≤ 1) := by omega
    have hdiv : (2 ^ c - 1 + 1) / 2 = 2 ^ (c - 1) := by
      have he : 2 ^ c - 1 + 1 = 2 ^ c := by omega
      have hp : (2 : Nat) ^ c = 2 ^ (c - 1) * 2 := by
        conv_lhs => rw [show c = (c - 1) + 1 by omega]
        rw [pow_succ]
      rw [he, hp]
      omega
    rw [clog2f, if_neg h1, hdiv, clog2f_two_pow (c - 1) f' (by omega)]
    omega

theorem nextPow2_two_pow_sub_one (c : Nat) (hc : 2 ≤ c) :
    nextPow2 (2 ^ c - 1) = 2 ^ c := by
  have hfuel : c ≤ 2 ^ c - 1 := by
    have := Nat.lt_two_pow c
    omega
  rw [nextPow2, clog2, clog2f_two_pow_sub_one c hc (2 ^ c - 1) hfuel]

/-- C9 amended: two sequential `allocate(size)` / `deallocate` cycles with no
intervening work, from a fresh default-configured allocator, return blocks
with equal generation values for every size with
`next_power_of_two(size - 1) = next_power_of_two(size)` (between 33 and the
maximum block size); for sizes of the form 2^k + 1 the claim fails, because
the second allocate consults a cache class below the block's rounded size,
misses, and creates a fresh block with a new generation. -/
theorem c9_pool_reuse (size c : Nat) (st2 : AllocSt) (hs32 : 32 < size)
    (hc1 : nextPow2 (size - 1) = 2 ^ c) (hc2 : nextPow2 size = 2 ^ c)
    (hc6 : 6 ≤ c) (hc16 : c ≤ 16)
    (hde : cacheDeallocate defaultConfig
      (topAllocate defaultConfig (initState defaultConfig) size).2 0 = some st2) :
    (topAllocate defaultConfig (initState defaultConfig) size).1 = .ok 0 ∧
    (topAllocate defaultConfig st2 size).1 = .ok 0 ∧
    (getBlk (topAllocate defaultConfig st2 size).2 0).generation =
      (getBlk (topAllocate defaultConfig (initState defaultConfig) size).2 0).generation := by
  have h32c : 32 < 2 ^ c :=
    lt_of_lt_of_le (by norm_num) (Nat.pow_le_pow_right (by norm_num) hc6)
  have h1 : getSizeClassIndex size = getSizeClassIndex (2 ^ c) := by
    rw [getSizeClassIndex, getSizeClassIndex, if_neg (by omega : ¬ size ≤ 32),
      if_neg (by omega : ¬ 2 ^ c ≤ 32), hc1, nextPow2_two_pow_sub_one c (by omega)]
  have h2 : nextPow2 size = nextPow2 (2 ^ c) := by
    rw [hc2, nextPow2_two_pow]
  obtain ⟨hstEq, hres⟩ :=
    topAllocate_size_congr defaultConfig (initState defaultConfig) size (2 ^ c) h1 h2
  rw [hstEq] at hde
  have hst2 : st2 = (cacheDeallocate defaultConfig
      (topAllocate defaultConfig (initState defaultConfig) (2 ^ c)).2 0).getD
        (initState defaultConfig) := by
    rw [hde]
    rfl
  subst hst2
  obtain ⟨hstEq2, hres2⟩ :=
    topAllocate_size_congr defaultConfig
      ((cacheDeallocate defaultConfig
        (topAllocate defaultConfig (initState defaultConfig) (2 ^ c)).2 0).getD
          (initState defaultConfig)) size (2 ^ c) h1 h2
  interval_cases c <;>
    · rcases hres with ⟨id, ha, hb⟩ | ⟨e, e', ha, hb⟩
      · have hid : (0 : Nat) = id := by
          have hb2 : (Except.ok 0 : Except AErr Nat) = Except.ok id := hb
          injection hb2
        subst hid
        rcases hres2 with ⟨id2, ha2, hb2⟩ | ⟨e2, e2', ha2, hb2⟩
        · have hid2 : (0 : Nat) = id2 := by
            have hb3 : (Except.ok 0 : Except AErr Nat) = Except.ok id2 := hb2
            injection hb3
          subst hid2
          refine ⟨ha, ha2, ?_⟩
          rw [hstEq, hstEq2]
          rfl
        · exact (Except.noConfusion
            (show (Except.ok 0 : Except AErr Nat) = Except.error e2' from hb2))
      · exact (Except.noConfusion
          (show (Except.ok 0 : Except AErr Nat) = Except.error e' from hb))

/-- Witness for the amended C9 at size 64 (a well-behaved size): both cycles
return block 0 and the generations agree. -/
theorem c9_witness :
    (topAllocate defaultConfig (initState defaultConfig) 64).1 = .ok 0 ∧
    (topAllocate defaultConfig ((cacheDeallocate defaultConfig
      (topAllocate defaultConfig (initState defaultConfig) 64).2 0).getD
        (initState defaultConfig)) 64).1 = .ok 0 ∧
    (getBlk (topAllocate defaultConfig ((cacheDeallocate defaultConfig
      (topAllocate defaultConfig (initState defaultConfig) 64).2 0).getD
        (initState defaultConfig)) 64).2 0).generation =
      (getBlk (topAllocate defaultConfig (initState defaultConfig) 64).2 0).generation :=
  c9_pool_reuse 64 6
    ((cacheDeallocate defaultConfig
      (topAllocate defaultConfig (initState defaultConfig) 64).2 0).getD
        (initState defaultConfig))
    (by norm_num) (by decide) (by decide) (by norm_num) (by norm_num) rfl

/-- C9 counterexample: with the default configuration, two sequential
`allocate(65)` / `deallocate` cycles on a fresh allocator return blocks with
DIFFERENT generations — the first cycle's 128-byte block is parked in cache
class 128, but `allocate(65)` consults class 64 (computed from
`next_power_of_two(64)`), misses, and creates a fresh block with the next
generation. -/
theorem c9_counterexample :
    ((topAllocate defaultConfig (initState defaultConfig) 65).1 = .ok 0 ∧
      (topAllocate defaultConfig ((cacheDeallocate defaultConfig
        (topAllocate defaultConfig (initState defaultConfig) 65).2 0).getD
          (initState defaultConfig)) 65).1 = .ok 1) ∧
    ¬ ((getBlk (topAllocate defaultConfig ((cacheDeallocate defaultConfig
        (topAllocate defaultConfig (initState defaultConfig) 65).2 0).getD
          (initState defaultConfig)) 65).2 1).generation =
        (getBlk (topAllocate defaultConfig (initState defaultConfig) 65).2 0).generation) := by
  refine ⟨⟨rfl, rfl⟩, ?_⟩
  intro h
  exact absurd (show (1 : Nat) = 0 from h) (by decide)

theorem classGetBlock_init (cfg : Config) (cidx : Nat) (hc : cidx < 9) :
    classGetBlock (initState cfg) cidx = (none, initState cfg) := by
  have hcl : (initState cfg).classes[cidx]? =
      some { size := sizeClasses[cidx]!, hotQueue := [], coldQueue := [], allocationCount := 0 } := by
    show (sizeClasses.map fun s =>
        ({ size := s, hotQueue := [], coldQueue := [], allocationCount := 0 } : SizeClassSt))[cidx]? = _
    rw [List.getElem?_map]
    interval_cases cidx <;> rfl
  have hat : classAttempt (initState cfg) cidx true = (none, initState cfg) := by
    simp [classAttempt, hcl]
  have hac : classAttempt (initState cfg) cidx false = (none, initState cfg) := by
    simp [classAttempt, hcl]
  simp only [classGetBlock, hat, hac]

theorem getSizeClassIndex_zero : getSizeClassIndex 0 = some 0 := by decide

theorem nextPow2_zero : nextPow2 0 = 1 := by decide

/-- C10: on a fresh allocator whose `min_block_size` exceeds 1, a zero-size
allocation returns InvalidSize: the request maps to cache class 0, whose
queues are empty, and the pool rounds 0 up to `next_power_of_two(0) = 1`,
which is below `min_block_size`. -/
theorem c10_zero_size_invalid (cfg : Config)
    (hmin : 1 < cfg.minBlockSize) (hmax : cfg.minBlockSize ≤ cfg.maxBlockSize) :
    (topAllocate cfg (initState cfg) 0).1 = .error (.invalidSize 0 cfg.maxBlockSize) ∧
    getSizeClassIndex 0 = some 0 ∧ nextPow2 0 = 1 ∧ nextPow2 0 < cfg.minBlockSize := by
  have h1 : ¬ nextPow2 0 > cfg.maxBlockSize := by
    rw [nextPow2_zero]
    omega
  have h2 : nextPow2 0 < cfg.minBlockSize := by
    rw [nextPow2_zero]
    omega
  have hgp : ∀ pools, getSizePool cfg pools 0 = .error (.invalidSize 0 cfg.maxBlockSize) := by
    intro pools
    simp only [getSizePool, if_pos h2]
  have hpool : ∀ st : AllocSt, ∀ gener : Nat,
      allocWithGen cfg st 0 gener = (.error (.invalidSize 0 cfg.maxBlockSize), st) := by
    intro st gener
    simp only [allocWithGen, allocWithGenSnap, if_neg h1, hgp]
  have hcache : cacheAllocate cfg (initState cfg) 0 =
      (.error (.invalidSize 0 cfg.maxBlockSize),
        { { initState cfg with stats := recordCacheMiss (initState cfg).stats } with
            currentGeneration :=
              wadd ({ initState cfg with
                stats := recordCacheMiss (initState cfg).stats }).currentGeneration 1 }) := by
    simp only [cacheAllocate, getSizeClassIndex_zero, classGetBlock_init cfg 0 (by omega),
      cacheMissPath, newGeneration, hpool]
  simp only [topAllocate, hcache, hpool]
  exact ⟨trivial, getSizeClassIndex_zero, nextPow2_zero, h2⟩

/-- Witness for C10 at the default configuration. -/
theorem c10_witness :
    1 < defaultConfig.minBlockSize ∧
    (topAllocate defaultConfig (initState defaultConfig) 0).1 =
      .error (.invalidSize 0 defaultConfig.maxBlockSize) :=
  ⟨by decide, (c10_zero_size_invalid defaultConfig (by decide) (by decide)).1⟩

/-- C3: the budget claim fails on the code — after allocate(16384),
deallocate, allocate(16384) (served by free-list reuse, which records no
allocation), deallocate again, the second pool deallocate wraps the
`current_bytes` counter to 2^64 - 16384, far above the soft cap
`(max_memory * 3) / 4`.  The configuration is validated. -/
theorem c3_budget_violated :
    (runOps wrapConfig (initState wrapConfig)
        [.alloc 16384, .dealloc 0, .alloc 16384, .dealloc 0]).map
      (fun st => st.stats.currentAllocated) = some (2 ^ 64 - 16384) ∧
    wrapConfig.maxMemory * 3 / 4 < 2 ^ 64 - 16384 ∧
    wrapConfig.validateOk = true := by
  refine ⟨by decide, by decide, by decide⟩

/-- C4: round-up determinism fails on the code — on a fresh default
allocator, after allocate(64) and deallocate, the 64-byte block sits in
cache class 1; allocate(65) maps to class 1 via
`next_power_of_two(65 - 1) = 64` and is served that 64-byte block, although
`next_power_of_two(max(65, min_block_size)) = 128`. -/
theorem c4_undersized_cache_hit :
    (runOps defaultConfig (initState defaultConfig) [.alloc 64, .dealloc 0]).map
        (fun st => ((topAllocate defaultConfig st 65).1,
          (getBlk (topAllocate defaultConfig st 65).2 0).size))
      = some (Except.ok 0, 64) ∧
    nextPow2 (max 65 defaultConfig.minBlockSize) = 128 := by
  constructor
  · rfl
  · decide

/-- C7: the hit/miss accounting claim fails on the code — a single
`AtomAlloc::allocate(64)` on a fresh default allocator increments BOTH
counters: `BlockCache::allocate` records the miss, and the top level records
a cache hit on every successful return. -/
theorem c7_both_counters :
    (topAllocate defaultConfig (initState defaultConfig) 64).2.stats.cacheHits = 1 ∧
    (topAllocate defaultConfig (initState defaultConfig) 64).2.stats.cacheMisses = 1 := by
  constructor
  · decide
  · decide
